import Mathlib

/-!
Shallow embedding of the planning-data engine of this repository
(server mock adapter in `src/server/src/routes.ts`, shared shapes in
`src/shared/types.ts`, external-engine adapter in the same server file).

Modelling conventions:
* JavaScript numbers are modelled as exact rationals (`ℚ`);
  `Math.round` is `jsRound` (floor of `x + 1/2`, which is the JS rule
  including negative halves).
* The mutable `Map<string, number>` cell store is observed only through
  `get` and `set` (never iterated), so it is modelled as an association
  list where `set` prepends and `get` returns the first match, which is
  observationally the `Map` behavior; `Map.get(k) ?? 0` is
  `(s.get k).getD 0`.
* Methods that `throw` for an unknown module are modelled with `Option`
  results; methods that never throw are total functions.
* The seeded PRNG closure is modelled by threading its `ℕ` state.
-/

/-- JS `Math.round`: round half towards positive infinity. -/
def jsRound (q : ℚ) : ℚ := ((q + 1/2).floor : ℚ)

/-- `Math.round(v * 100) / 100`: round to 2 decimal places, as used by the
seeding and recalculation code. -/
def round2 (q : ℚ) : ℚ := jsRound (q * 100) / 100

/-- `DimensionItem` of `shared/types.ts`. -/
structure DimensionItem where
  id : String
  name : String
  parentItemId : Option String := none
deriving DecidableEq

/-- `Dimension` of `shared/types.ts`. -/
structure Dimension where
  id : String
  name : String
  parentDimensionId : Option String := none
deriving DecidableEq

/-- `CellFormat` of `shared/types.ts`. -/
inductive CellFormat
  | number
  | currency
  | percentage
  | text
deriving DecidableEq

/-- `LineItemMeta` of `shared/types.ts`. -/
structure LineItemMeta where
  id : String
  name : String
  format : CellFormat
  editable : Bool
deriving DecidableEq

/-- `ModuleMeta` of `shared/types.ts`. -/
structure ModuleMeta where
  id : String
  name : String
  dimensionIds : List String
  lineItems : List LineItemMeta
deriving DecidableEq

/-- `WorkspaceSchema` of `shared/types.ts`. -/
structure WorkspaceSchema where
  dimensions : List Dimension
  modules : List ModuleMeta
  versions : List DimensionItem
deriving DecidableEq

/-- `NumericFilterOp` of `shared/types.ts`. -/
inductive NumericFilterOp
  | gte
  | gt
  | lte
  | lt
  | zero
  | non_zero
  | between
deriving DecidableEq

/-- `NumericFilterDef` of `shared/types.ts`. -/
structure NumericFilterDef where
  lineItemId : String
  operator : NumericFilterOp
  value : Option ℚ := none
  valueHigh : Option ℚ := none
deriving DecidableEq

/-- `CellWrite` of `shared/types.ts` (the numeric payload of `value` after
the `Number(...)` conversion applied by the mock adapter). -/
structure CellWrite where
  rowId : String
  columnKey : String
  value : ℚ
deriving DecidableEq

/-- `CellWriteResult` of `shared/types.ts`; the absent `errors` field is the
empty list. -/
structure CellWriteResult where
  success : Bool
  errors : List String := []
deriving DecidableEq

/-- `ModuleDataRequest` of `shared/types.ts`. `filters` maps a dimension id
to the selected item ids, absent entries being `[]`. -/
structure ModuleDataRequest where
  filters : String → List String
  lineItemFilters : List (String × List String) := []
  numericFilters : List NumericFilterDef := []
  version : String
  lineItemId : Option String := none
  page : Option ℕ := none
  pageSize : Option ℕ := none

/-- Column kind of `ColumnDef`. -/
inductive ColType
  | dimension
  | value
deriving DecidableEq

/-- `ColumnDef` of `shared/types.ts`. -/
structure ColumnDef where
  key : String
  label : String
  type : ColType
  format : Option CellFormat := none
  editable : Option Bool := none
  lineItemId : Option String := none
  timePeriodId : Option String := none
deriving DecidableEq

/-- A cell of a `DataRow`: `string | number | null`. -/
inductive CellValue
  | str : String → CellValue
  | num : ℚ → CellValue
  | null
deriving DecidableEq

/-- `DataRow` of `shared/types.ts`; the `cells` record is an association
list in JS object insertion order. -/
structure DataRow where
  id : String
  cells : List (String × CellValue)
deriving DecidableEq

/-- `ModuleDataResponse` of `shared/types.ts`. -/
structure ModuleDataResponse where
  columns : List ColumnDef
  rows : List DataRow
  page : ℕ
  pageSize : ℕ
  totalRows : ℕ
deriving DecidableEq

/-! ### Static reference data of the mock adapter -/

/-- `VERSIONS` of the mock adapter. -/
def VERSIONS : List DimensionItem :=
  [⟨"actual", "Actual", none⟩,
   ⟨"budget", "Budget 2024", none⟩,
   ⟨"forecast", "Forecast Q2", none⟩]

/-- `DIMENSIONS` of the mock adapter. -/
def DIMENSIONS : List Dimension :=
  [⟨"time", "Time Period", none⟩,
   ⟨"product", "Product Line", none⟩,
   ⟨"region", "Region", none⟩,
   ⟨"subregion", "Sub-Region", some "region"⟩,
   ⟨"department", "Department", none⟩]

/-- `DIM_ITEMS` of the mock adapter: `Record<string, DimensionItem[]>`,
with the `?? []` default for unknown dimension ids built in. -/
def DIM_ITEMS (dimId : String) : List DimensionItem :=
  if dimId = "time" then
    [⟨"q1_24", "Q1 2024", none⟩, ⟨"q2_24", "Q2 2024", none⟩,
     ⟨"q3_24", "Q3 2024", none⟩, ⟨"q4_24", "Q4 2024", none⟩,
     ⟨"q1_25", "Q1 2025", none⟩, ⟨"q2_25", "Q2 2025", none⟩]
  else if dimId = "product" then
    [⟨"electronics", "Electronics", none⟩, ⟨"apparel", "Apparel", none⟩,
     ⟨"home", "Home & Garden", none⟩]
  else if dimId = "region" then
    [⟨"na", "North America", none⟩, ⟨"eu", "Europe", none⟩,
     ⟨"apac", "Asia Pacific", none⟩]
  else if dimId = "subregion" then
    [⟨"us", "United States", some "na"⟩, ⟨"ca", "Canada", some "na"⟩,
     ⟨"uk", "United Kingdom", some "eu"⟩, ⟨"de", "Germany", some "eu"⟩,
     ⟨"fr", "France", some "eu"⟩, ⟨"jp", "Japan", some "apac"⟩,
     ⟨"au", "Australia", some "apac"⟩]
  else if dimId = "department" then
    [⟨"sales", "Sales", none⟩, ⟨"marketing", "Marketing", none⟩,
     ⟨"operations", "Operations", none⟩, ⟨"rnd", "R&D", none⟩]
  else []

/-- The `revenue` entry of `MODULES`. -/
def revenueModule : ModuleMeta :=
  ⟨"revenue", "Revenue Planning", ["time", "product", "subregion"],
   [⟨"units", "Units Sold", .number, true⟩,
    ⟨"price", "Avg Price", .currency, true⟩,
    ⟨"gross_rev", "Gross Revenue", .currency, false⟩,
    ⟨"discounts", "Discounts", .currency, true⟩,
    ⟨"net_rev", "Net Revenue", .currency, false⟩]⟩

/-- The `expense` entry of `MODULES`. -/
def expenseModule : ModuleMeta :=
  ⟨"expense", "Expense Planning", ["time", "department", "subregion"],
   [⟨"headcount", "Headcount", .number, true⟩,
    ⟨"avg_salary", "Avg Salary", .currency, true⟩,
    ⟨"travel", "Travel & Expenses", .currency, true⟩,
    ⟨"software", "Software Costs", .currency, true⟩,
    ⟨"total_exp", "Total Expenses", .currency, false⟩]⟩

/-- The `pnl` entry of `MODULES`. -/
def pnlModule : ModuleMeta :=
  ⟨"pnl", "P&L Summary", ["time", "product"],
   [⟨"revenue", "Revenue", .currency, false⟩,
    ⟨"cogs", "COGS", .currency, true⟩,
    ⟨"gross_profit", "Gross Profit", .currency, false⟩,
    ⟨"opex", "OpEx", .currency, true⟩,
    ⟨"ebitda", "EBITDA", .currency, false⟩,
    ⟨"net_income", "Net Income", .currency, false⟩]⟩

/-- `MODULES` of the mock adapter. -/
def MODULES : List ModuleMeta := [revenueModule, expenseModule, pnlModule]

/-! ### Cell store -/

/-- `cellKey`: `"moduleId|version|rowComposite|lineItem|timeId"` with the
row composite joined by commas. -/
def cellKey (moduleId version : String) (rowDims : List String)
    (lineItemId timeId : String) : String :=
  moduleId ++ "|" ++ version ++ "|" ++ String.intercalate "," rowDims ++ "|"
    ++ lineItemId ++ "|" ++ timeId

/-- The sparse cell store `Map<CellKey, number>`. A JS `Map` is observed by
the adapter only through `get` and `set` (it is never iterated), so it is
modelled as an association list where `set` prepends and `get` takes the
first match: this has exactly the `Map` get/set behavior (the latest `set`
of a key wins). -/
def Store := List (String × ℚ)

/-- The empty store. -/
def Store.empty : Store := []

/-- `Map.set`. -/
def Store.set (s : Store) (k : String) (v : ℚ) : Store := (k, v) :: s

/-- `Map.get` (`undefined` = `none`): the most recently set value. -/
def Store.get (s : Store) (k : String) : Option ℚ :=
  match s with
  | [] => none
  | e :: rest => if k = e.1 then some e.2 else Store.get rest k

/-! ### Mock adapter: schema discovery -/

/-- `MockAdapter.getSchema`: returns the static catalog for every
workspace id (the parameter is unused in the source). -/
def getSchema (_workspaceId : String) : WorkspaceSchema :=
  ⟨DIMENSIONS, MODULES, VERSIONS⟩

/-- The optional `parentFilter` argument of `getDimensionItems`. -/
structure ParentFilter where
  dimensionId : String
  itemIds : List String
deriving DecidableEq

/-- `MockAdapter.getDimensionItems`. -/
def getDimensionItems (_workspaceId dimensionId : String)
    (parentFilter : Option ParentFilter) : List DimensionItem :=
  let items := DIM_ITEMS dimensionId
  match parentFilter with
  | none => items
  | some pf =>
    if pf.itemIds.isEmpty then items
    else
      items.filter fun item =>
        match item.parentItemId with
        | some p => pf.itemIds.contains p
        | none => false

/-! ### Mock adapter: filter resolution and row combination -/

/-- `MockAdapter.getFilteredItems`. -/
def getFilteredItems (dimId : String) (filters : String → List String) :
    List DimensionItem :=
  let allItems := DIM_ITEMS dimId
  let selected := filters dimId
  if selected ≠ [] then
    allItems.filter fun item => selected.contains item.id
  else
    match (DIMENSIONS.find? (fun d => d.id == dimId)).bind
        (fun d => d.parentDimensionId) with
    | some pd =>
      let parentSelected := filters pd
      if parentSelected ≠ [] then
        allItems.filter fun item =>
          match item.parentItemId with
          | some p => parentSelected.contains p
          | none => false
      else allItems
    | none => allItems

/-- `MockAdapter.cartesian`. -/
def cartesian {α : Type} (arrays : List (List α)) : List (List α) :=
  if arrays.isEmpty then [[]]
  else arrays.foldl (fun acc curr => acc.flatMap fun a => curr.map fun c => a ++ [c]) [[]]

/-! ### Mock adapter: recalculation -/

/-- One (row, time-period) step of `MockAdapter.recalculate`: the body of
the inner loop, reading editable inputs and setting the computed line
items of the module. -/
def recalcRow (moduleId version : String) (rowDims : List String)
    (tpId : String) (s : Store) : Store :=
  let get := fun liId => (s.get (cellKey moduleId version rowDims liId tpId)).getD 0
  let set := fun (st : Store) liId val =>
    st.set (cellKey moduleId version rowDims liId tpId) (round2 val)
  if moduleId = "revenue" then
    let units := get "units"
    let price := get "price"
    let discounts := get "discounts"
    set (set s "gross_rev" (units * price)) "net_rev" (units * price - discounts)
  else if moduleId = "expense" then
    let headcount := get "headcount"
    let avgSalary := get "avg_salary"
    let travel := get "travel"
    let software := get "software"
    set s "total_exp" (headcount * avgSalary + travel + software)
  else if moduleId = "pnl" then
    let revenue := get "revenue"
    let cogs := get "cogs"
    let opex := get "opex"
    set (set (set s "gross_profit" (revenue - cogs)) "ebitda" (revenue - cogs - opex))
      "net_income" ((revenue - cogs - opex) * 0.75)
  else s

/-- `MockAdapter.recalculate`: iterates over the whole module's row
combinations and time periods. (The source looks the module up with a
non-null assertion; every caller passes a known module id, so the unknown
case returns the store unchanged here.) -/
def recalculate (moduleId version : String) (s : Store) : Store :=
  match MODULES.find? (fun m => m.id == moduleId) with
  | none => s
  | some mod =>
    let rowDimIds := mod.dimensionIds.filter (· ≠ "time")
    let timeItems := DIM_ITEMS "time"
    let rowCombinations :=
      cartesian (rowDimIds.map fun dimId => (DIM_ITEMS dimId).map (·.id))
    rowCombinations.foldl
      (fun st rowDims =>
        timeItems.foldl (fun st2 tp => recalcRow moduleId version rowDims tp.id st2) st)
      s

/-! ### Mock adapter: write-back -/

/-- Prepend a character to the first piece of a split result. -/
def consHead (c : Char) : List (List Char) → List (List Char)
  | [] => [[c]]
  | h :: t => (c :: h) :: t

/-- JS `split('_')` on a character list (leftmost-first, keeping empty
pieces, `[""]` for the empty string). -/
def splitUnderscore : List Char → List (List Char)
  | [] => [[]]
  | c :: cs =>
    if c = '_' then [] :: splitUnderscore cs
    else consHead c (splitUnderscore cs)

/-- JS `split('__')` on a character list (leftmost non-overlapping
matches, keeping empty pieces). -/
def splitDoubleUnderscore : List Char → List (List Char)
  | [] => [[]]
  | '_' :: '_' :: cs => [] :: splitDoubleUnderscore cs
  | c :: cs => consHead c (splitDoubleUnderscore cs)

/-- JS `rowId.split('_')`. -/
def splitUnderscoreStr (s : String) : List String :=
  (splitUnderscore s.data).map fun l => (⟨l⟩ : String)

/-- Parsing of `columnKey` in `writeCells`:
`columnKey.includes('__') ? columnKey.split('__') : [columnKey, '_']`,
destructured to the first two components (a single-element split result
means `'__'` does not occur, which is exactly the `[columnKey, '_']`
fallback case). -/
def parseColumnKey (ck : String) : String × String :=
  match (splitDoubleUnderscore ck.data).map (fun l => (⟨l⟩ : String)) with
  | [] => (ck, "_")
  | [li] => (li, "_")
  | li :: t :: _ => (li, t)

/-- `rowId.replace(/^row_\d+_/, '')`: strip a leading `row_<digits>_` tag
if present. `afterDigitsUnderscore` consumes the digit run and the
following underscore. -/
def afterDigitsUnderscore : List Char → Option (List Char)
  | [] => none
  | c :: cs =>
    if c.isDigit then afterDigitsUnderscore cs
    else if c = '_' then some cs
    else none

/-- Strip the `^row_\d+_` tag from a row id (identity when absent). -/
def stripRowTag (rowId : String) : String :=
  match rowId.data with
  | 'r' :: 'o' :: 'w' :: '_' :: c :: cs =>
    if c.isDigit then
      match afterDigitsUnderscore cs with
      | some rest => ⟨rest⟩
      | none => rowId
    else rowId
  | _ => rowId

/-- The cell key a single `CellWrite` of `writeCells` resolves to. -/
def writeKey (moduleId version : String) (w : CellWrite) : String :=
  let p := parseColumnKey w.columnKey
  cellKey moduleId version (splitUnderscoreStr (stripRowTag w.rowId)) p.1 p.2

/-- The error, if any, that `writeCells` records for one write against a
module (unknown line item, or line item not editable). -/
def writeError (mod : ModuleMeta) (w : CellWrite) : Option String :=
  let lineItemId := (parseColumnKey w.columnKey).1
  match mod.lineItems.find? (fun l => l.id == lineItemId) with
  | none => some ("Line item " ++ lineItemId ++ " not found")
  | some li =>
    if !li.editable then some ("Line item " ++ li.name ++ " is not editable")
    else none

/-- The loop body of `MockAdapter.writeCells`: accumulate an error for an
invalid write, otherwise set the resolved cell key to the written value. -/
def writeStep (mod : ModuleMeta) (moduleId version : String)
    (acc : List String × Store) (w : CellWrite) : List String × Store :=
  match writeError mod w with
  | some e => (acc.1 ++ [e], acc.2)
  | none => (acc.1, acc.2.set (writeKey moduleId version w) w.value)

/-- `MockAdapter.writeCells`: validate and apply a batch of writes, then
run the recalculation pass; returns the `CellWriteResult` and the
resulting store. -/
def writeCells (s : Store) (moduleId version : String)
    (writes : List CellWrite) : CellWriteResult × Store :=
  match MODULES.find? (fun m => m.id == moduleId) with
  | none => (⟨false, ["Module " ++ moduleId ++ " not found"]⟩, s)
  | some mod =>
    let acc := writes.foldl (writeStep mod moduleId version) ([], s)
    let s2 := recalculate moduleId version acc.2
    (if acc.1.isEmpty then ⟨true, []⟩ else ⟨false, acc.1⟩, s2)

/-! ### Mock adapter: module data -/

/-- `MockAdapter.getModuleData`. Returns `none` where the source throws
(`Module ... not found`). -/
def getModuleData (_workspaceId moduleId : String)
    (request : ModuleDataRequest) (cells : Store) : Option ModuleDataResponse :=
  match MODULES.find? (fun m => m.id == moduleId) with
  | none => none
  | some mod =>
    let version := if request.version = "" then "actual" else request.version
    let page := request.page.getD 1
    let pageSize := request.pageSize.getD 50
    let rowDimIds := mod.dimensionIds.filter (· ≠ "time")
    let hasTime := mod.dimensionIds.contains "time"
    let timeItems :=
      if hasTime then getFilteredItems "time" request.filters
      else [⟨"_", "", none⟩]
    let lineItems :=
      match request.lineItemId with
      | some li => mod.lineItems.filter (fun (l : LineItemMeta) => l.id == li)
      | none => mod.lineItems
    let rowCombinations :=
      cartesian (rowDimIds.map fun dimId =>
        (getFilteredItems dimId request.filters).map fun item => (dimId, item))
    let dimColumns : List ColumnDef := rowDimIds.map fun dimId =>
      { key := dimId
        label := ((DIMENSIONS.find? (fun d => d.id == dimId)).getD ⟨dimId, "", none⟩).name
        type := .dimension }
    let valueColumns : List ColumnDef := lineItems.flatMap fun li =>
      timeItems.map fun (tp : DimensionItem) =>
        { key := if hasTime then li.id ++ "__" ++ tp.id else li.id
          label := if hasTime then li.name ++ " - " ++ tp.name else li.name
          type := .value
          format := some li.format
          editable := some li.editable
          lineItemId := some li.id
          timePeriodId := if hasTime then some tp.id else none }
    let allRows : List DataRow := rowCombinations.enum.map fun (idx, combo) =>
      let rowDimValues := combo.map fun c => c.2.id
      let dimCells : List (String × CellValue) :=
        combo.map fun c => (c.1, CellValue.str c.2.name)
      let valueCells : List (String × CellValue) := lineItems.flatMap fun li =>
        timeItems.map fun (tp : DimensionItem) =>
          let key := if hasTime then li.id ++ "__" ++ tp.id else li.id
          let ck := cellKey moduleId version rowDimValues li.id tp.id
          (key, match cells.get ck with
                | some q => CellValue.num q
                | none => CellValue.null)
      { id := "row_" ++ toString idx ++ "_" ++ String.intercalate "_" rowDimValues
        cells := dimCells ++ valueCells }
    let totalRows := allRows.length
    let start := (page - 1) * pageSize
    some { columns := dimColumns ++ valueColumns
           rows := (allRows.drop start).take pageSize
           page := page
           pageSize := pageSize
           totalRows := totalRows }

/-! ### Mock adapter: seeding -/

/-- One draw of `seededRandom`: the state update `s = (s * 16807) % 2147483647`
followed by the returned value `(s - 1) / 2147483646`. -/
def randCall (s : ℕ) : ℚ × ℕ :=
  let s2 := (s * 16807) % 2147483647
  (((s2 : ℚ) - 1) / 2147483646, s2)

/-- `baseByProduct[product] ?? 1` of the revenue seed function. -/
def baseByProduct (product : String) : ℚ :=
  if product = "electronics" then 1.5
  else if product = "apparel" then 0.8
  else if product = "home" then 1.0
  else 1

/-- The revenue-module seed value function, threading the PRNG state. -/
def revenueValueFn (rowDims : List String) (li _tp : String) (s : ℕ) : ℚ × ℕ :=
  let mult := baseByProduct (rowDims.headD "")
  if li = "units" then
    let r := randCall s
    (jsRound (500 + r.1 * 2000 * mult), r.2)
  else if li = "price" then
    let r := randCall s
    (round2 (20 + r.1 * 80 * mult), r.2)
  else (0, s)

/-- The expense-module seed value function. -/
def expenseValueFn (_rowDims : List String) (li _tp : String) (s : ℕ) : ℚ × ℕ :=
  if li = "headcount" then
    let r := randCall s
    (jsRound (5 + r.1 * 45), r.2)
  else if li = "avg_salary" then
    let r := randCall s
    (jsRound (50000 + r.1 * 80000), r.2)
  else if li = "travel" then
    let r := randCall s
    (jsRound (5000 + r.1 * 25000), r.2)
  else if li = "software" then
    let r := randCall s
    (jsRound (2000 + r.1 * 15000), r.2)
  else (0, s)

/-- The P&L-module seed value function (only called for editable line
items, so the `revenue` branch is never reached by `seedModule`). -/
def pnlValueFn (_rowDims : List String) (li _tp : String) (s : ℕ) : ℚ × ℕ :=
  if li = "revenue" then
    let r := randCall s
    (jsRound (100000 + r.1 * 500000), r.2)
  else if li = "cogs" then
    let r := randCall s
    (jsRound (40000 + r.1 * 200000), r.2)
  else if li = "opex" then
    let r := randCall s
    (jsRound (20000 + r.1 * 100000), r.2)
  else (0, s)

/-- The line-item loop body of `seedModule`: skip computed line items,
draw the seed value and store `Math.round(val * versionMult * 100) / 100`. -/
def seedLiStep (moduleId version : String) (versionMult : ℚ)
    (valueFn : List String → String → String → ℕ → ℚ × ℕ)
    (rowDims : List String) (tpId : String) (acc : Store × ℕ)
    (li : LineItemMeta) : Store × ℕ :=
  if !li.editable then acc
  else
    let v := valueFn rowDims li.id tpId acc.2
    (acc.1.set (cellKey moduleId version rowDims li.id tpId)
      (round2 (v.1 * versionMult)), v.2)

/-- `MockAdapter.seedModule`: seed every editable line item of every
(row, time) combination, skipping computed line items. -/
def seedModule (acc : Store × ℕ) (moduleId version : String) (versionMult : ℚ)
    (valueFn : List String → String → String → ℕ → ℚ × ℕ) : Store × ℕ :=
  match MODULES.find? (fun m => m.id == moduleId) with
  | none => acc
  | some mod =>
    let rowDimIds := mod.dimensionIds.filter (· ≠ "time")
    let timeItems := DIM_ITEMS "time"
    let rowCombinations :=
      cartesian (rowDimIds.map fun dimId => (DIM_ITEMS dimId).map (·.id))
    rowCombinations.foldl
      (fun acc1 rowDims =>
        timeItems.foldl
          (fun acc2 tp =>
            mod.lineItems.foldl
              (seedLiStep moduleId version versionMult valueFn rowDims tp.id)
              acc2)
          acc1)
      acc

/-- `version.id === 'budget' ? 1.1 : version.id === 'forecast' ? 1.05 : 1.0`. -/
def versionMultiplier (vid : String) : ℚ :=
  if vid = "budget" then 1.1 else if vid = "forecast" then 1.05 else 1.0

/-- The per-version seeding step of `seedData`: seed the revenue, expense
and P&L modules in order, threading the PRNG state. -/
def seedVersionStep (acc : Store × ℕ) (v : DimensionItem) : Store × ℕ :=
  let m := versionMultiplier v.id
  let a1 := seedModule acc "revenue" v.id m revenueValueFn
  let a2 := seedModule a1 "expense" v.id m expenseValueFn
  seedModule a2 "pnl" v.id m pnlValueFn

/-- The per-version recalculation step of `seedData`. -/
def recalcVersionStep (st : Store) (v : DimensionItem) : Store :=
  recalculate "pnl" v.id (recalculate "expense" v.id (recalculate "revenue" v.id st))

/-- `MockAdapter.seedData` (run by `connect`): seed the three modules for
every version with one threaded PRNG started at 42, then run the
recalculation pass for every module and version. -/
def seedData : Store :=
  VERSIONS.foldl recalcVersionStep (VERSIONS.foldl seedVersionStep (Store.empty, 42)).1

/-! ### Anaplan adapter: write-back decision logic -/

/-- `AnaplanAdapter.writeCells`, with the network transport abstracted:
`schema` is the fetched workspace schema, `importId` is the id of the
created import action (`none` when creation failed, which the source
turns into the caught `Failed to create Anaplan import` error). On the
success path every cell of the batch is serialized into one CSV line of
the upload payload (returned here as the list of cells, in order) and the
result is `{success: true}`: the source performs no per-cell validation of
any kind, in particular no editability check. -/
def anaplanWriteCells (schema : WorkspaceSchema) (moduleId : String)
    (importId : Option String) (cells : List CellWrite) :
    CellWriteResult × List CellWrite :=
  match schema.modules.find? (fun m => m.id == moduleId) with
  | none => (⟨false, ["Module " ++ moduleId ++ " not found"]⟩, [])
  | some _mod =>
    match importId with
    | none => (⟨false, ["Failed to create Anaplan import"]⟩, [])
    | some _ => (⟨true, []⟩, cells)

/-! ### Store lemmas -/

theorem Store.get_set_self (s : Store) (k : String) (v : ℚ) :
    (s.set k v).get k = some v := by
  simp [Store.set, Store.get]

theorem Store.get_set_ne (s : Store) {k k' : String} (v : ℚ) (h : k' ≠ k) :
    (s.set k v).get k' = s.get k' := by
  simp [Store.set, Store.get, h]

/-! ### Key-string machinery

`cellKey` joins its components with `'|'` (and the row tuple with `','`).
Keys built from separator-free components decompose uniquely, which is
what the recalculation and write lemmas below rely on. -/

/-- A string without the `'|'` key separator. -/
def pipeFree (s : String) : Prop := '|' ∉ s.data

instance (s : String) : Decidable (pipeFree s) := by
  unfold pipeFree; infer_instance

theorem intercalate_eq_cons {α : Type} (sep x : List α) (xs : List (List α)) :
    List.intercalate sep (x :: xs) = x ++ (xs.map fun y => sep ++ y).flatten := by
  induction xs generalizing x with
  | nil => simp [List.intercalate, List.intersperse]
  | cons y t ih =>
    simp only [List.intercalate, List.intersperse] at ih ⊢
    simp [List.flatten, ih, List.append_assoc]

theorem intercalate_go_data (s : String) (l : List String) (acc : String) :
    (String.intercalate.go acc s l).data
      = acc.data ++ (l.map fun a => s.data ++ a.data).flatten := by
  induction l generalizing acc with
  | nil => simp [String.intercalate.go]
  | cons a as ih =>
    simp [String.intercalate.go, ih, String.data_append, List.append_assoc]

theorem intercalate_data (s : String) (l : List String) :
    (String.intercalate s l).data = List.intercalate s.data (l.map String.data) := by
  cases l with
  | nil => simp [String.intercalate, List.intercalate]
  | cons a as =>
    rw [String.intercalate, intercalate_go_data]
    simp only [List.map_cons]
    rw [intercalate_eq_cons]
    simp [List.map_map, Function.comp_def]

theorem sum_map_succ {β : Type} (f : β → ℕ) (l : List β) :
    (l.map fun y => f y + 1).sum = (l.map f).sum + l.length := by
  induction l with
  | nil => simp
  | cons a t ih => simp [ih]; omega

theorem count_intercalate {α : Type} [DecidableEq α] (c : α) (xs : List (List α))
    (h : xs ≠ []) :
    (List.intercalate [c] xs).count c + 1 = (xs.map (List.count c)).sum + xs.length := by
  cases xs with
  | nil => exact absurd rfl h
  | cons a as =>
    rw [intercalate_eq_cons]
    simp only [List.count_append, List.count_flatten, List.map_map]
    have hc : (List.count c ∘ fun y => [c] ++ y) = fun y => List.count c y + 1 := by
      funext y
      simp [List.count_cons]
    rw [hc, sum_map_succ]
    simp
    omega

theorem intercalate_inj {α : Type} [DecidableEq α] {c : α} {xs ys : List (List α)}
    (hlen : xs.length = ys.length) (hys : ∀ l ∈ ys, c ∉ l) (hne : ys ≠ [])
    (h : List.intercalate [c] xs = List.intercalate [c] ys) : xs = ys := by
  have hxs : xs ≠ [] := by
    intro h0
    apply hne
    cases ys with
    | nil => rfl
    | cons b bs => subst h0; simp at hlen
  have hcx := count_intercalate c xs hxs
  have hcy := count_intercalate c ys hne
  rw [h, hcy] at hcx
  have hysz : (ys.map (List.count c)).sum = 0 := by
    rw [List.sum_eq_zero_iff]
    intro x hx
    obtain ⟨l, hl, rfl⟩ := List.mem_map.mp hx
    exact List.count_eq_zero.mpr (hys l hl)
  rw [hysz] at hcx
  have hxsz : ∀ l ∈ xs, c ∉ l := by
    intro l hl
    apply List.count_eq_zero.mp
    have : (xs.map (List.count c)).sum = 0 := by omega
    rw [List.sum_eq_zero_iff] at this
    exact this _ (List.mem_map.mpr ⟨l, hl, rfl⟩)
  calc xs = ([c].intercalate xs).splitOn c := (List.splitOn_intercalate xs c hxsz hxs).symm
    _ = ([c].intercalate ys).splitOn c := by rw [show ([c].intercalate xs : List α) = [c].intercalate ys from h]
    _ = ys := List.splitOn_intercalate ys c hys hne

theorem cellKey_data (m v : String) (r : List String) (li t : String) :
    (cellKey m v r li t).data
      = List.intercalate ['|']
          [m.data, v.data, (String.intercalate "," r).data, li.data, t.data] := by
  simp [cellKey, String.data_append, List.intercalate, List.intersperse,
    List.append_assoc]

theorem cellKey_data_nested (m v : String) (r : List String) (li t : String) :
    (cellKey m v r li t).data
      = m.data ++ '|' :: (v.data ++ '|' ::
          List.intercalate ['|'] [(String.intercalate "," r).data, li.data, t.data]) := by
  simp [cellKey, String.data_append, List.intercalate, List.intersperse,
    List.append_assoc]

/-- Full decomposition of a key equality whose right-hand side is built
from separator-free components. -/
theorem cellKey_inj {m v li t m' v' li' t' : String} {r r' : List String}
    (h : cellKey m v r li t = cellKey m' v' r' li' t')
    (h1 : pipeFree m') (h2 : pipeFree v')
    (h3 : pipeFree (String.intercalate "," r'))
    (h4 : pipeFree li') (h5 : pipeFree t') :
    m = m' ∧ v = v' ∧
      String.intercalate "," r = String.intercalate "," r' ∧ li = li' ∧ t = t' := by
  have hd := congrArg String.data h
  rw [cellKey_data, cellKey_data] at hd
  have hys : ∀ l ∈ [m'.data, v'.data, (String.intercalate "," r').data,
      li'.data, t'.data], '|' ∉ l := by
    intro l hl
    simp only [List.mem_cons, List.not_mem_nil, or_false] at hl
    rcases hl with rfl | rfl | rfl | rfl | rfl <;> assumption
  have := intercalate_inj (by simp) hys (by simp) hd
  simp only [List.cons.injEq, and_true] at this
  obtain ⟨e1, e2, e3, e4, e5⟩ := this
  exact ⟨String.ext e1, String.ext e2, String.ext e3, String.ext e4, String.ext e5⟩

/-- Decomposition of a key equality that shares the module id and version,
with the remaining right-hand components separator-free. -/
theorem cellKey_inj_same_mv {m v li t li' t' : String} {r r' : List String}
    (h : cellKey m v r li t = cellKey m v r' li' t')
    (h3 : pipeFree (String.intercalate "," r'))
    (h4 : pipeFree li') (h5 : pipeFree t') :
    String.intercalate "," r = String.intercalate "," r' ∧ li = li' ∧ t = t' := by
  have hd := congrArg String.data h
  rw [cellKey_data_nested, cellKey_data_nested] at hd
  have hd2 := List.append_cancel_left hd
  simp only [List.cons.injEq, true_and] at hd2
  have hd3 := List.append_cancel_left hd2
  simp only [List.cons.injEq, true_and] at hd3
  have hys : ∀ l ∈ [(String.intercalate "," r').data, li'.data, t'.data], '|' ∉ l := by
    intro l hl
    simp only [List.mem_cons, List.not_mem_nil, or_false] at hl
    rcases hl with rfl | rfl | rfl <;> assumption
  have := intercalate_inj (by simp) hys (by simp) hd3
  simp only [List.cons.injEq, and_true] at this
  obtain ⟨e1, e2, e3⟩ := this
  exact ⟨String.ext e1, String.ext e2, String.ext e3⟩

/-- Two keys with the same module, version, row tuple and time period but
different (separator-free) line items differ. -/
theorem cellKey_ne_li {m v li li' t : String} {r : List String}
    (hJ : pipeFree (String.intercalate "," r)) (hli : pipeFree li)
    (ht : pipeFree t) (hne : li' ≠ li) :
    cellKey m v r li' t ≠ cellKey m v r li t := fun h =>
  hne (cellKey_inj_same_mv h hJ hli ht).2.1

/-! ### Recalculation: write-set characterization -/

/-- The line items `recalculate` assigns (the left-hand sides of the
`set` calls of each module branch). -/
def recalcOuts (moduleId : String) : List String :=
  if moduleId = "revenue" then ["gross_rev", "net_rev"]
  else if moduleId = "expense" then ["total_exp"]
  else if moduleId = "pnl" then ["gross_profit", "ebitda", "net_income"]
  else []

/-- The line items `recalculate` reads (the arguments of the `get` calls
of each module branch). -/
def recalcIns (moduleId : String) : List String :=
  if moduleId = "revenue" then ["units", "price", "discounts"]
  else if moduleId = "expense" then ["headcount", "avg_salary", "travel", "software"]
  else if moduleId = "pnl" then ["revenue", "cogs", "opex"]
  else []

/-- The row combinations `recalculate` and `seedModule` iterate for a
module (empty for an unknown module id). -/
def moduleCombos (moduleId : String) : List (List String) :=
  match MODULES.find? (fun m => m.id == moduleId) with
  | none => []
  | some mod =>
    cartesian ((mod.dimensionIds.filter (· ≠ "time")).map fun dimId =>
      (DIM_ITEMS dimId).map (·.id))

/-- The canonical time-period ids. -/
def timeIds : List String := (DIM_ITEMS "time").map (·.id)

/-- Every key `recalculate moduleId version` can assign. -/
def recalcOutKeys (moduleId version : String) : List String :=
  (moduleCombos moduleId).flatMap fun r =>
    (DIM_ITEMS "time").flatMap fun tp =>
      (recalcOuts moduleId).map fun li => cellKey moduleId version r li tp.id

theorem mem_recalcOutKeys {moduleId version k : String} :
    k ∈ recalcOutKeys moduleId version ↔
      ∃ r ∈ moduleCombos moduleId, ∃ tp ∈ DIM_ITEMS "time",
        ∃ li ∈ recalcOuts moduleId, k = cellKey moduleId version r li tp.id := by
  simp only [recalcOutKeys, List.mem_flatMap, List.mem_map]
  constructor
  · rintro ⟨r, hr, tp, htp, li, hli, rfl⟩
    exact ⟨r, hr, tp, htp, li, hli, rfl⟩
  · rintro ⟨r, hr, tp, htp, li, hli, rfl⟩
    exact ⟨r, hr, tp, htp, li, hli, rfl⟩

/-- A single recalculation row step leaves every key it does not assign
unchanged. -/
theorem recalcRow_get_ne (m v : String) (r : List String) (tpId : String)
    (s : Store) (k : String)
    (h : ∀ li ∈ recalcOuts m, k ≠ cellKey m v r li tpId) :
    (recalcRow m v r tpId s).get k = s.get k := by
  by_cases h1 : m = "revenue"
  · subst h1
    have e1 := h "gross_rev" (by simp [recalcOuts])
    have e2 := h "net_rev" (by simp [recalcOuts])
    simp [recalcRow, Store.set, Store.get, e1, e2]
  by_cases h2 : m = "expense"
  · subst h2
    have e1 := h "total_exp" (by simp [recalcOuts])
    simp [recalcRow, Store.set, Store.get, e1]
  by_cases h3 : m = "pnl"
  · subst h3
    have e1 := h "gross_profit" (by simp [recalcOuts])
    have e2 := h "ebitda" (by simp [recalcOuts])
    have e3 := h "net_income" (by simp [recalcOuts])
    simp [recalcRow, Store.set, Store.get, e1, e2, e3]
  simp [recalcRow, h1, h2, h3]

/-- The inner (time) loop of `recalculate` leaves every key it does not
assign unchanged. -/
theorem foldl_times_get_ne (m v : String) (r : List String)
    (times : List DimensionItem) (s : Store) (k : String)
    (h : ∀ tp ∈ times, ∀ li ∈ recalcOuts m, k ≠ cellKey m v r li tp.id) :
    (times.foldl (fun st2 tp => recalcRow m v r tp.id st2) s).get k = s.get k := by
  induction times generalizing s with
  | nil => rfl
  | cons tp rest ih =>
    simp only [List.foldl_cons]
    rw [ih _ fun tp2 h2 li hli => h tp2 (List.mem_cons_of_mem _ h2) li hli,
      recalcRow_get_ne _ _ _ _ _ _ fun li hli => h tp (List.mem_cons_self _ _) li hli]

/-- The full (row × time) loop of `recalculate` leaves every key it does
not assign unchanged. -/
theorem foldl_rows_get_ne (m v : String) (rows : List (List String))
    (times : List DimensionItem) (s : Store) (k : String)
    (h : ∀ r ∈ rows, ∀ tp ∈ times, ∀ li ∈ recalcOuts m, k ≠ cellKey m v r li tp.id) :
    (rows.foldl (fun st r => times.foldl (fun st2 tp => recalcRow m v r tp.id st2) st) s).get k
      = s.get k := by
  induction rows generalizing s with
  | nil => rfl
  | cons r rest ih =>
    simp only [List.foldl_cons]
    rw [ih _ fun r2 h2 => h r2 (List.mem_cons_of_mem _ h2),
      foldl_times_get_ne _ _ _ _ _ _ (h r (List.mem_cons_self _ _))]

theorem find?_MODULES (m : String) :
    MODULES.find? (fun mm => mm.id == m)
      = if m = "revenue" then some revenueModule
        else if m = "expense" then some expenseModule
        else if m = "pnl" then some pnlModule
        else none := by
  by_cases h1 : m = "revenue"
  · subst h1; rfl
  by_cases h2 : m = "expense"
  · subst h2; rfl
  by_cases h3 : m = "pnl"
  · subst h3; rfl
  have e1 : (("revenue" : String) == m) = false := beq_eq_false_iff_ne.mpr (Ne.symm h1)
  have e2 : (("expense" : String) == m) = false := beq_eq_false_iff_ne.mpr (Ne.symm h2)
  have e3 : (("pnl" : String) == m) = false := beq_eq_false_iff_ne.mpr (Ne.symm h3)
  simp [revenueModule, expenseModule, pnlModule, h1, h2, h3, e1, e2, e3,
    MODULES, List.find?]

theorem recalculate_def_found {moduleId : String} {mod : ModuleMeta}
    (h : MODULES.find? (fun mm => mm.id == moduleId) = some mod)
    (version : String) (s : Store) :
    recalculate moduleId version s
      = (moduleCombos moduleId).foldl
          (fun st r =>
            (DIM_ITEMS "time").foldl (fun st2 tp => recalcRow moduleId version r tp.id st2) st)
          s := by
  unfold recalculate moduleCombos
  rw [h]

theorem recalculate_def_none {moduleId : String}
    (h : MODULES.find? (fun mm => mm.id == moduleId) = none)
    (version : String) (s : Store) :
    recalculate moduleId version s = s := by
  unfold recalculate
  rw [h]

/-- `recalculate` leaves every key outside its write set unchanged. -/
theorem recalculate_get_not_mem {moduleId version k : String} (s : Store)
    (h : k ∉ recalcOutKeys moduleId version) :
    (recalculate moduleId version s).get k = s.get k := by
  cases hf : MODULES.find? (fun mm => mm.id == moduleId) with
  | none => rw [recalculate_def_none hf]
  | some mod =>
    rw [recalculate_def_found hf]
    apply foldl_rows_get_ne
    intro r hr tp htp li hli hk
    exact h (mem_recalcOutKeys.mpr ⟨r, hr, tp, htp, li, hli, hk⟩)

/-! ### Canonical catalog facts (decidable) -/

theorem combos_join_pipeFree (m : String) :
    ∀ r ∈ moduleCombos m, pipeFree (String.intercalate "," r) := by
  by_cases h1 : m = "revenue"
  · subst h1; decide
  by_cases h2 : m = "expense"
  · subst h2; decide
  by_cases h3 : m = "pnl"
  · subst h3; decide
  intro r hr
  simp [moduleCombos, find?_MODULES, h1, h2, h3] at hr

theorem combos_join_inj (m : String) :
    ∀ r ∈ moduleCombos m, ∀ r' ∈ moduleCombos m,
      String.intercalate "," r = String.intercalate "," r' → r = r' := by
  by_cases h1 : m = "revenue"
  · subst h1; decide
  by_cases h2 : m = "expense"
  · subst h2; decide
  by_cases h3 : m = "pnl"
  · subst h3; decide
  intro r hr
  simp [moduleCombos, find?_MODULES, h1, h2, h3] at hr

theorem times_pipeFree : ∀ tp ∈ DIM_ITEMS "time", pipeFree tp.id := by decide

theorem times_id_inj :
    ∀ tp ∈ DIM_ITEMS "time", ∀ tp' ∈ DIM_ITEMS "time", tp.id = tp'.id → tp = tp' := by
  decide

theorem outs_pipeFree (m : String) : ∀ li ∈ recalcOuts m, pipeFree li := by
  by_cases h1 : m = "revenue"
  · subst h1; decide
  by_cases h2 : m = "expense"
  · subst h2; decide
  by_cases h3 : m = "pnl"
  · subst h3; decide
  simp [recalcOuts, h1, h2, h3]

theorem ins_not_out (m : String) : ∀ li ∈ recalcIns m, li ∉ recalcOuts m := by
  by_cases h1 : m = "revenue"
  · subst h1; decide
  by_cases h2 : m = "expense"
  · subst h2; decide
  by_cases h3 : m = "pnl"
  · subst h3; decide
  simp [recalcIns, h1, h2, h3]

/-- A key whose line item is one of the module's recalculation inputs is
never in the recalculation write set (for any version, row tuple and
time id). -/
theorem input_key_not_out {m v li : String} (r : List String) (t : String)
    (hli : li ∈ recalcIns m) :
    cellKey m v r li t ∉ recalcOutKeys m v := by
  rw [mem_recalcOutKeys]
  rintro ⟨r', hr', tp, htp, li', hli', heq⟩
  have hd := cellKey_inj_same_mv heq (combos_join_pipeFree m r' hr')
    (outs_pipeFree m li' hli') (times_pipeFree tp htp)
  exact ins_not_out m li hli (hd.2.1 ▸ hli')

/-! ### Recalculation: row-level characterization -/

theorem recalcRow_pnl_get (v : String) (r : List String) (t : String) (s : Store)
    (hJ : pipeFree (String.intercalate "," r)) (ht : pipeFree t) :
    ((recalcRow "pnl" v r t s).get (cellKey "pnl" v r "gross_profit" t)
        = some (round2 ((s.get (cellKey "pnl" v r "revenue" t)).getD 0
            - (s.get (cellKey "pnl" v r "cogs" t)).getD 0)))
    ∧ ((recalcRow "pnl" v r t s).get (cellKey "pnl" v r "ebitda" t)
        = some (round2 ((s.get (cellKey "pnl" v r "revenue" t)).getD 0
            - (s.get (cellKey "pnl" v r "cogs" t)).getD 0
            - (s.get (cellKey "pnl" v r "opex" t)).getD 0)))
    ∧ ((recalcRow "pnl" v r t s).get (cellKey "pnl" v r "net_income" t)
        = some (round2 (((s.get (cellKey "pnl" v r "revenue" t)).getD 0
            - (s.get (cellKey "pnl" v r "cogs" t)).getD 0
            - (s.get (cellKey "pnl" v r "opex" t)).getD 0) * 0.75))) := by
  have h1 : cellKey "pnl" v r "gross_profit" t ≠ cellKey "pnl" v r "net_income" t :=
    cellKey_ne_li hJ (by decide) ht (by decide)
  have h2 : cellKey "pnl" v r "gross_profit" t ≠ cellKey "pnl" v r "ebitda" t :=
    cellKey_ne_li hJ (by decide) ht (by decide)
  have h3 : cellKey "pnl" v r "ebitda" t ≠ cellKey "pnl" v r "net_income" t :=
    cellKey_ne_li hJ (by decide) ht (by decide)
  refine ⟨?_, ?_, ?_⟩ <;>
    simp [recalcRow, Store.set, Store.get, h1, h2, h3]

theorem recalcRow_revenue_get (v : String) (r : List String) (t : String) (s : Store)
    (hJ : pipeFree (String.intercalate "," r)) (ht : pipeFree t) :
    ((recalcRow "revenue" v r t s).get (cellKey "revenue" v r "gross_rev" t)
        = some (round2 ((s.get (cellKey "revenue" v r "units" t)).getD 0
            * (s.get (cellKey "revenue" v r "price" t)).getD 0)))
    ∧ ((recalcRow "revenue" v r t s).get (cellKey "revenue" v r "net_rev" t)
        = some (round2 ((s.get (cellKey "revenue" v r "units" t)).getD 0
            * (s.get (cellKey "revenue" v r "price" t)).getD 0
            - (s.get (cellKey "revenue" v r "discounts" t)).getD 0))) := by
  have h1 : cellKey "revenue" v r "gross_rev" t ≠ cellKey "revenue" v r "net_rev" t :=
    cellKey_ne_li hJ (by decide) ht (by decide)
  refine ⟨?_, ?_⟩ <;>
    simp [recalcRow, Store.set, Store.get, h1]

/-- The result of a recalculation row step at any key depends on the
incoming store only through the row's input cells and the key itself. -/
theorem recalcRow_congr (m v : String) (r : List String) (t : String)
    (s1 s2 : Store) (k : String)
    (hIn : ∀ li ∈ recalcIns m,
      s1.get (cellKey m v r li t) = s2.get (cellKey m v r li t))
    (hK : s1.get k = s2.get k) :
    (recalcRow m v r t s1).get k = (recalcRow m v r t s2).get k := by
  by_cases hm1 : m = "revenue"
  · subst hm1
    have e1 := hIn "units" (by simp [recalcIns])
    have e2 := hIn "price" (by simp [recalcIns])
    have e3 := hIn "discounts" (by simp [recalcIns])
    simp [recalcRow, Store.set, Store.get, e1, e2, e3, hK]
  by_cases hm2 : m = "expense"
  · subst hm2
    have e1 := hIn "headcount" (by simp [recalcIns])
    have e2 := hIn "avg_salary" (by simp [recalcIns])
    have e3 := hIn "travel" (by simp [recalcIns])
    have e4 := hIn "software" (by simp [recalcIns])
    simp [recalcRow, Store.set, Store.get, e1, e2, e3, e4, hK]
  by_cases hm3 : m = "pnl"
  · subst hm3
    have e1 := hIn "revenue" (by simp [recalcIns])
    have e2 := hIn "cogs" (by simp [recalcIns])
    have e3 := hIn "opex" (by simp [recalcIns])
    simp [recalcRow, Store.set, Store.get, e1, e2, e3, hK]
  simp [recalcRow, hm1, hm2, hm3, hK]

theorem combos_nodup (m : String) : (moduleCombos m).Nodup := by
  by_cases h1 : m = "revenue"
  · subst h1; decide
  by_cases h2 : m = "expense"
  · subst h2; decide
  by_cases h3 : m = "pnl"
  · subst h3; decide
  simp [moduleCombos, find?_MODULES, h1, h2, h3]

theorem times_nodup : (DIM_ITEMS "time").Nodup := by decide

/-- Master lemma: at a key that only the (r, tp) iteration of
`recalculate` can assign, the whole recalculation pass behaves like that
single row step applied to the original store. -/
theorem recalculate_get_owned (m v : String) (s : Store)
    {r : List String} {tp : DimensionItem}
    (hr : r ∈ moduleCombos m) (htp : tp ∈ DIM_ITEMS "time")
    (mod : ModuleMeta) (hfind : MODULES.find? (fun mm => mm.id == m) = some mod)
    (k : String)
    (howned : ∀ r' ∈ moduleCombos m, ∀ tp' ∈ DIM_ITEMS "time",
      ∀ li' ∈ recalcOuts m, k = cellKey m v r' li' tp'.id → r' = r ∧ tp' = tp) :
    (recalculate m v s).get k = (recalcRow m v r tp.id s).get k := by
  obtain ⟨C1, C2, hsplit⟩ := List.append_of_mem hr
  obtain ⟨T1, T2, htsplit⟩ := List.append_of_mem htp
  have hCnod := combos_nodup m
  rw [hsplit] at hCnod
  have hrC1 : r ∉ C1 := fun hmem =>
    (List.disjoint_of_nodup_append hCnod) hmem (List.mem_cons_self _ _)
  have hrC2 : r ∉ C2 :=
    (List.nodup_cons.mp (hCnod.of_append_right)).1
  have hTnod := times_nodup
  rw [htsplit] at hTnod
  have htpT1 : tp ∉ T1 := fun hmem =>
    (List.disjoint_of_nodup_append hTnod) hmem (List.mem_cons_self _ _)
  have htpT2 : tp ∉ T2 :=
    (List.nodup_cons.mp (hTnod.of_append_right)).1
  have hmemC1 : ∀ r' ∈ C1, r' ∈ moduleCombos m := fun r' h =>
    hsplit ▸ List.mem_append_left _ h
  have hmemC2 : ∀ r' ∈ C2, r' ∈ moduleCombos m := fun r' h =>
    hsplit ▸ List.mem_append_right _ (List.mem_cons_of_mem _ h)
  have hmemT1 : ∀ tp' ∈ T1, tp' ∈ DIM_ITEMS "time" := fun tp' h =>
    htsplit ▸ List.mem_append_left _ h
  have hmemT2 : ∀ tp' ∈ T2, tp' ∈ DIM_ITEMS "time" := fun tp' h =>
    htsplit ▸ List.mem_append_right _ (List.mem_cons_of_mem _ h)
  rw [recalculate_def_found hfind, hsplit, List.foldl_append, List.foldl_cons, htsplit,
    List.foldl_append, List.foldl_cons]
  rw [foldl_rows_get_ne m v C2 _ _ k (by
    intro r' hr' tp' htp' li' hli' hk
    have htp2 : tp' ∈ DIM_ITEMS "time" := by rw [htsplit]; exact htp'
    exact hrC2 (((howned r' (hmemC2 r' hr') tp' htp2 li' hli' hk).1) ▸ hr'))]
  rw [foldl_times_get_ne m v r T2 _ k (by
    intro tp' htp' li' hli' hk
    exact htpT2 (((howned r hr tp' (hmemT2 tp' htp') li' hli' hk).2) ▸ htp'))]
  apply recalcRow_congr
  · intro li hli
    rw [foldl_times_get_ne m v r T1 _ _ (by
        intro tp' htp' li' hli' hk
        have hd := cellKey_inj_same_mv hk (combos_join_pipeFree m r hr)
          (outs_pipeFree m li' hli') (times_pipeFree tp' (hmemT1 tp' htp'))
        exact ins_not_out m li hli (hd.2.1 ▸ hli')),
      foldl_rows_get_ne m v C1 _ s _ (by
        intro r' hr' tp' htp' li' hli' hk
        have htp2 : tp' ∈ DIM_ITEMS "time" := by rw [htsplit]; exact htp'
        have hd := cellKey_inj_same_mv hk (combos_join_pipeFree m r' (hmemC1 r' hr'))
          (outs_pipeFree m li' hli') (times_pipeFree tp' htp2)
        exact ins_not_out m li hli (hd.2.1 ▸ hli'))]
  · rw [foldl_times_get_ne m v r T1 _ k (by
        intro tp' htp' li' hli' hk
        exact htpT1 (((howned r hr tp' (hmemT1 tp' htp') li' hli' hk).2) ▸ htp')),
      foldl_rows_get_ne m v C1 _ s k (by
        intro r' hr' tp' htp' li' hli' hk
        have htp2 : tp' ∈ DIM_ITEMS "time" := by rw [htsplit]; exact htp'
        exact hrC1 (((howned r' (hmemC1 r' hr') tp' htp2 li' hli' hk).1) ▸ hr'))]

/-- An output key of iteration (r, tp) is assigned by no other iteration. -/
theorem owned_out (m v : String) {r : List String} {tp : DimensionItem} {li : String}
    (hr : r ∈ moduleCombos m) (htp : tp ∈ DIM_ITEMS "time") :
    ∀ r' ∈ moduleCombos m, ∀ tp' ∈ DIM_ITEMS "time", ∀ li' ∈ recalcOuts m,
      cellKey m v r li tp.id = cellKey m v r' li' tp'.id → r' = r ∧ tp' = tp := by
  intro r' hr' tp' htp' li' hli' hk
  have hd := cellKey_inj_same_mv hk (combos_join_pipeFree m r' hr')
    (outs_pipeFree m li' hli') (times_pipeFree tp' htp')
  exact ⟨(combos_join_inj m r hr r' hr' hd.1).symm,
    (times_id_inj tp htp tp' htp' hd.2.2).symm⟩

/-- What `recalculate` stores for the P&L module: each computed line item
is the rounded formula over the (unrounded) inputs read from the incoming
store. -/
theorem recalculate_pnl_get (v : String) (s : Store) {r : List String}
    {tp : DimensionItem} (hr : r ∈ moduleCombos "pnl") (htp : tp ∈ DIM_ITEMS "time") :
    ((recalculate "pnl" v s).get (cellKey "pnl" v r "gross_profit" tp.id)
        = some (round2 ((s.get (cellKey "pnl" v r "revenue" tp.id)).getD 0
            - (s.get (cellKey "pnl" v r "cogs" tp.id)).getD 0)))
    ∧ ((recalculate "pnl" v s).get (cellKey "pnl" v r "ebitda" tp.id)
        = some (round2 ((s.get (cellKey "pnl" v r "revenue" tp.id)).getD 0
            - (s.get (cellKey "pnl" v r "cogs" tp.id)).getD 0
            - (s.get (cellKey "pnl" v r "opex" tp.id)).getD 0)))
    ∧ ((recalculate "pnl" v s).get (cellKey "pnl" v r "net_income" tp.id)
        = some (round2 (((s.get (cellKey "pnl" v r "revenue" tp.id)).getD 0
            - (s.get (cellKey "pnl" v r "cogs" tp.id)).getD 0
            - (s.get (cellKey "pnl" v r "opex" tp.id)).getD 0) * 0.75))) := by
  have hJ := combos_join_pipeFree _ r hr
  have ht := times_pipeFree tp htp
  have hrow := recalcRow_pnl_get v r tp.id s hJ ht
  refine ⟨?_, ?_, ?_⟩
  · rw [recalculate_get_owned "pnl" v s hr htp pnlModule (by decide) _ (owned_out "pnl" v hr htp)]
    exact hrow.1
  · rw [recalculate_get_owned "pnl" v s hr htp pnlModule (by decide) _ (owned_out "pnl" v hr htp)]
    exact hrow.2.1
  · rw [recalculate_get_owned "pnl" v s hr htp pnlModule (by decide) _ (owned_out "pnl" v hr htp)]
    exact hrow.2.2

/-- What `recalculate` stores for the revenue module. -/
theorem recalculate_revenue_get (v : String) (s : Store) {r : List String}
    {tp : DimensionItem} (hr : r ∈ moduleCombos "revenue") (htp : tp ∈ DIM_ITEMS "time") :
    ((recalculate "revenue" v s).get (cellKey "revenue" v r "gross_rev" tp.id)
        = some (round2 ((s.get (cellKey "revenue" v r "units" tp.id)).getD 0
            * (s.get (cellKey "revenue" v r "price" tp.id)).getD 0)))
    ∧ ((recalculate "revenue" v s).get (cellKey "revenue" v r "net_rev" tp.id)
        = some (round2 ((s.get (cellKey "revenue" v r "units" tp.id)).getD 0
            * (s.get (cellKey "revenue" v r "price" tp.id)).getD 0
            - (s.get (cellKey "revenue" v r "discounts" tp.id)).getD 0))) := by
  have hJ := combos_join_pipeFree _ r hr
  have ht := times_pipeFree tp htp
  have hrow := recalcRow_revenue_get v r tp.id s hJ ht
  refine ⟨?_, ?_⟩
  · rw [recalculate_get_owned "revenue" v s hr htp revenueModule (by decide) _ (owned_out "revenue" v hr htp)]
    exact hrow.1
  · rw [recalculate_get_owned "revenue" v s hr htp revenueModule (by decide) _ (owned_out "revenue" v hr htp)]
    exact hrow.2

/-- Idempotence of the recalculation pass for the revenue module. -/
theorem recalculate_revenue_idem (v : String) (s : Store) (k : String) :
    (recalculate "revenue" v (recalculate "revenue" v s)).get k
      = (recalculate "revenue" v s).get k := by
  by_cases hk : k ∈ recalcOutKeys "revenue" v
  · rw [mem_recalcOutKeys] at hk
    obtain ⟨r, hr, tp, htp, li, hli, rfl⟩ := hk
    have hins : ∀ li' ∈ recalcIns "revenue",
        (recalculate "revenue" v s).get (cellKey "revenue" v r li' tp.id)
          = s.get (cellKey "revenue" v r li' tp.id) := fun li' hli' =>
      recalculate_get_not_mem _ (input_key_not_out r tp.id hli')
    have h1 := recalculate_revenue_get v s hr htp
    have h2 := recalculate_revenue_get v (recalculate "revenue" v s) hr htp
    have eu := hins "units" (by simp [recalcIns])
    have ep := hins "price" (by simp [recalcIns])
    have ed := hins "discounts" (by simp [recalcIns])
    rcases (show li = "gross_rev" ∨ li = "net_rev" by
      simpa [recalcOuts] using hli) with rfl | rfl
    · rw [h2.1, h1.1, eu, ep]
    · rw [h2.2, h1.2, eu, ep, ed]
  · exact recalculate_get_not_mem _ hk

/-- Idempotence of the recalculation pass for the P&L module. -/
theorem recalculate_pnl_idem (v : String) (s : Store) (k : String) :
    (recalculate "pnl" v (recalculate "pnl" v s)).get k
      = (recalculate "pnl" v s).get k := by
  by_cases hk : k ∈ recalcOutKeys "pnl" v
  · rw [mem_recalcOutKeys] at hk
    obtain ⟨r, hr, tp, htp, li, hli, rfl⟩ := hk
    have hins : ∀ li' ∈ recalcIns "pnl",
        (recalculate "pnl" v s).get (cellKey "pnl" v r li' tp.id)
          = s.get (cellKey "pnl" v r li' tp.id) := fun li' hli' =>
      recalculate_get_not_mem _ (input_key_not_out r tp.id hli')
    have h1 := recalculate_pnl_get v s hr htp
    have h2 := recalculate_pnl_get v (recalculate "pnl" v s) hr htp
    have er := hins "revenue" (by simp [recalcIns])
    have ec := hins "cogs" (by simp [recalcIns])
    have eo := hins "opex" (by simp [recalcIns])
    rcases (show li = "gross_profit" ∨ li = "ebitda" ∨ li = "net_income" by
      simpa [recalcOuts] using hli) with rfl | rfl | rfl
    · rw [h2.1, h1.1, er, ec]
    · rw [h2.2.1, h1.2.1, er, ec, eo]
    · rw [h2.2.2, h1.2.2, er, ec, eo]
  · exact recalculate_get_not_mem _ hk

/-! ### Write-back lemmas -/

theorem foldl_writeStep_errors (mod : ModuleMeta) (moduleId version : String)
    (writes : List CellWrite) (errs : List String) (s : Store) :
    (writes.foldl (writeStep mod moduleId version) (errs, s)).1
      = errs ++ writes.filterMap (writeError mod) := by
  induction writes generalizing errs s with
  | nil => simp
  | cons w rest ih =>
    simp only [List.foldl_cons, writeStep]
    cases hw : writeError mod w with
    | none => simp [hw, ih]
    | some e => simp [hw, ih]

theorem foldl_writeStep_get_ne (mod : ModuleMeta) (moduleId version : String)
    (writes : List CellWrite) (errs : List String) (s : Store) (k : String)
    (h : ∀ w ∈ writes, writeError mod w = none → writeKey moduleId version w ≠ k) :
    (writes.foldl (writeStep mod moduleId version) (errs, s)).2.get k = s.get k := by
  induction writes generalizing errs s with
  | nil => rfl
  | cons w rest ih =>
    simp only [List.foldl_cons, writeStep]
    cases hw : writeError mod w with
    | none =>
      rw [ih _ _ fun w2 h2 => h w2 (List.mem_cons_of_mem _ h2)]
      exact Store.get_set_ne _ _ (h w (List.mem_cons_self _ _) hw).symm
    | some e =>
      exact ih _ _ fun w2 h2 => h w2 (List.mem_cons_of_mem _ h2)

theorem foldl_writeStep_get_last (mod : ModuleMeta) (moduleId version : String)
    {w : CellWrite} (ws1 ws2 : List CellWrite) (errs : List String) (s : Store)
    (hval : writeError mod w = none)
    (hlast : ∀ w2 ∈ ws2, writeKey moduleId version w2 ≠ writeKey moduleId version w) :
    ((ws1 ++ w :: ws2).foldl (writeStep mod moduleId version) (errs, s)).2.get
        (writeKey moduleId version w) = some w.value := by
  rw [List.foldl_append, List.foldl_cons]
  rw [foldl_writeStep_get_ne _ _ _ _ _ _ _ fun w2 h2 _ => hlast w2 h2]
  have : writeStep mod moduleId version (ws1.foldl (writeStep mod moduleId version) (errs, s)) w
      = ((ws1.foldl (writeStep mod moduleId version) (errs, s)).1,
        (ws1.foldl (writeStep mod moduleId version) (errs, s)).2.set
          (writeKey moduleId version w) w.value) := by
    simp [writeStep, hval]
  rw [this]
  exact Store.get_set_self _ _ _

/-- `writeCells` reports one error per invalid write (in batch order) and
succeeds exactly when every write is valid. -/
theorem writeCells_result {moduleId : String} {mod : ModuleMeta}
    (hfind : MODULES.find? (fun mm => mm.id == moduleId) = some mod)
    (s : Store) (version : String) (writes : List CellWrite) :
    (writeCells s moduleId version writes).1.errors
        = writes.filterMap (writeError mod)
    ∧ (writeCells s moduleId version writes).1.success
        = (writes.filterMap (writeError mod)).isEmpty := by
  unfold writeCells
  rw [hfind]
  simp only [foldl_writeStep_errors, List.nil_append]
  cases he : (writes.filterMap (writeError mod)).isEmpty with
  | true => simp [he, List.isEmpty_iff.mp he]
  | false => simp [he]

/-- A valid write that is the last of the batch to target its cell key is
committed: after `writeCells` (including its recalculation pass, which
never assigns a key outside its write set) the cell holds the written
value. -/
theorem writeCells_committed {moduleId : String} {mod : ModuleMeta}
    (hfind : MODULES.find? (fun mm => mm.id == moduleId) = some mod)
    (s : Store) (version : String) {w : CellWrite} (ws1 ws2 : List CellWrite)
    (hval : writeError mod w = none)
    (hlast : ∀ w2 ∈ ws2, writeKey moduleId version w2 ≠ writeKey moduleId version w)
    (hout : writeKey moduleId version w ∉ recalcOutKeys moduleId version) :
    (writeCells s moduleId version (ws1 ++ w :: ws2)).2.get
        (writeKey moduleId version w) = some w.value := by
  unfold writeCells
  rw [hfind]
  simp only
  rw [recalculate_get_not_mem _ hout]
  exact foldl_writeStep_get_last mod moduleId version ws1 ws2 [] s hval hlast

/-- A batch whose single write targets a non-editable line item is
rejected with the `not editable` error; provided the store is stable
under recalculation at the targeted cell, a follow-up read of that cell
returns the prior value. -/
theorem writeCells_rejected_single {moduleId : String} {mod : ModuleMeta}
    (hfind : MODULES.find? (fun mm => mm.id == moduleId) = some mod)
    (s : Store) (version : String) {w : CellWrite} {li : LineItemMeta}
    (hli : mod.lineItems.find? (fun l => l.id == (parseColumnKey w.columnKey).1) = some li)
    (hed : li.editable = false)
    (hstab : (recalculate moduleId version s).get (writeKey moduleId version w)
      = s.get (writeKey moduleId version w)) :
    (writeCells s moduleId version [w]).1
        = ⟨false, ["Line item " ++ li.name ++ " is not editable"]⟩
    ∧ (writeCells s moduleId version [w]).2.get (writeKey moduleId version w)
        = s.get (writeKey moduleId version w) := by
  have herr : writeError mod w = some ("Line item " ++ li.name ++ " is not editable") := by
    simp [writeError, hli, hed]
  unfold writeCells
  rw [hfind]
  simp [writeStep, herr, hstab]

/-! ### Seeding preservation lemmas -/

theorem foldl_seedLi_get_ne (moduleId version : String) (versionMult : ℚ)
    (valueFn : List String → String → String → ℕ → ℚ × ℕ)
    (rowDims : List String) (tpId : String) (lis : List LineItemMeta)
    (acc : Store × ℕ) (k : String)
    (h : ∀ li ∈ lis, li.editable = true → k ≠ cellKey moduleId version rowDims li.id tpId) :
    (lis.foldl (seedLiStep moduleId version versionMult valueFn rowDims tpId) acc).1.get k
      = acc.1.get k := by
  induction lis generalizing acc with
  | nil => rfl
  | cons li rest ih =>
    simp only [List.foldl_cons]
    rw [ih _ fun li2 h2 => h li2 (List.mem_cons_of_mem _ h2)]
    cases he : li.editable with
    | false => simp [seedLiStep, he]
    | true =>
      simp only [seedLiStep, he, Bool.not_true]
      exact Store.get_set_ne _ _ (h li (List.mem_cons_self _ _) he)

theorem foldl_seedTimes_get_ne (moduleId version : String) (versionMult : ℚ)
    (valueFn : List String → String → String → ℕ → ℚ × ℕ)
    (rowDims : List String) (times : List DimensionItem)
    (lis : List LineItemMeta) (acc : Store × ℕ) (k : String)
    (h : ∀ tp ∈ times, ∀ li ∈ lis, li.editable = true
      → k ≠ cellKey moduleId version rowDims li.id tp.id) :
    (times.foldl
        (fun acc2 tp =>
          lis.foldl (seedLiStep moduleId version versionMult valueFn rowDims tp.id) acc2)
        acc).1.get k
      = acc.1.get k := by
  induction times generalizing acc with
  | nil => rfl
  | cons tp rest ih =>
    simp only [List.foldl_cons]
    rw [ih _ fun tp2 h2 => h tp2 (List.mem_cons_of_mem _ h2),
      foldl_seedLi_get_ne _ _ _ _ _ _ _ _ _ (h tp (List.mem_cons_self _ _))]

theorem foldl_seedRows_get_ne (moduleId version : String) (versionMult : ℚ)
    (valueFn : List String → String → String → ℕ → ℚ × ℕ)
    (rows : List (List String)) (times : List DimensionItem)
    (lis : List LineItemMeta) (acc : Store × ℕ) (k : String)
    (h : ∀ r ∈ rows, ∀ tp ∈ times, ∀ li ∈ lis, li.editable = true
      → k ≠ cellKey moduleId version r li.id tp.id) :
    (rows.foldl
        (fun acc1 r =>
          times.foldl
            (fun acc2 tp =>
              lis.foldl (seedLiStep moduleId version versionMult valueFn r tp.id) acc2)
            acc1)
        acc).1.get k
      = acc.1.get k := by
  induction rows generalizing acc with
  | nil => rfl
  | cons r rest ih =>
    simp only [List.foldl_cons]
    rw [ih _ fun r2 h2 => h r2 (List.mem_cons_of_mem _ h2),
      foldl_seedTimes_get_ne _ _ _ _ _ _ _ _ _ (h r (List.mem_cons_self _ _))]

/-- `seedModule` leaves a key unchanged when the key matches no
(editable line item × row × time) cell of the module. -/
theorem seedModule_get_ne (acc : Store × ℕ) (moduleId version : String)
    (versionMult : ℚ) (valueFn : List String → String → String → ℕ → ℚ × ℕ)
    (k : String)
    (h : ∀ mod, MODULES.find? (fun mm => mm.id == moduleId) = some mod →
      ∀ r ∈ moduleCombos moduleId, ∀ tp ∈ DIM_ITEMS "time", ∀ li ∈ mod.lineItems,
        li.editable = true → k ≠ cellKey moduleId version r li.id tp.id) :
    (seedModule acc moduleId version versionMult valueFn).1.get k = acc.1.get k := by
  cases hfind : MODULES.find? (fun mm => mm.id == moduleId) with
  | none => unfold seedModule; rw [hfind]
  | some mod =>
    have hcomb : moduleCombos moduleId
        = cartesian ((mod.dimensionIds.filter (· ≠ "time")).map fun dimId =>
            (DIM_ITEMS dimId).map (·.id)) := by
      unfold moduleCombos
      rw [hfind]
    unfold seedModule
    rw [hfind]
    simp only
    rw [foldl_seedRows_get_ne]
    intro r hr tp htp li hli he
    exact h mod hfind r (by rw [hcomb]; exact hr) tp htp li hli he

/-! ### The P&L `revenue` column -/

/-- The cell key `getModuleData` reads for the P&L module's `revenue`
line item, product row `p`, time period `t`, under version `v`. -/
def pnlRevenueKey (v p t : String) : String := cellKey "pnl" v [p] "revenue" t

theorem product_ids_pipeFree : ∀ p ∈ (DIM_ITEMS "product").map (·.id), pipeFree p := by
  decide

theorem timeIds_pipeFree : ∀ t ∈ timeIds, pipeFree t := by decide

theorem intercalate_single (p : String) : String.intercalate "," [p] = p := rfl

theorem pnl_revenue_not_editable :
    ∀ li ∈ pnlModule.lineItems, li.id = "revenue" → li.editable = false := by decide

/-- The P&L `revenue` cell key (for a separator-free version) is outside
the write set of every recalculation pass. -/
theorem pnlRevenueKey_not_out {v p t : String} (hv : pipeFree v)
    (hp : p ∈ (DIM_ITEMS "product").map (·.id)) (ht : t ∈ timeIds)
    (m v' : String) : pnlRevenueKey v p t ∉ recalcOutKeys m v' := by
  rw [mem_recalcOutKeys]
  rintro ⟨r', hr', tp', htp', li', hli', heq⟩
  have hd := cellKey_inj heq.symm (by decide) hv
    (by rw [intercalate_single]; exact product_ids_pipeFree p hp)
    (by decide) (timeIds_pipeFree t ht)
  obtain ⟨hm, _, _, hli, _⟩ := hd
  subst hm
  rw [hli] at hli'
  revert hli'
  decide

/-- A write accepted by `writeCells` never resolves to a P&L `revenue`
cell key (for a separator-free version). -/
theorem writeKey_ne_pnlRevenueKey {moduleId : String} {mod : ModuleMeta}
    (hfind : MODULES.find? (fun mm => mm.id == moduleId) = some mod)
    {w : CellWrite} (hval : writeError mod w = none) (version : String)
    {v p t : String} (hv : pipeFree v)
    (hp : p ∈ (DIM_ITEMS "product").map (·.id)) (ht : t ∈ timeIds) :
    writeKey moduleId version w ≠ pnlRevenueKey v p t := by
  intro heq
  rw [writeKey] at heq
  have hd := cellKey_inj heq (by decide) hv
    (by rw [intercalate_single]; exact product_ids_pipeFree p hp)
    (by decide) (timeIds_pipeFree t ht)
  obtain ⟨hm, _, _, hli, _⟩ := hd
  subst hm
  rw [find?_MODULES] at hfind
  simp at hfind
  rw [← hfind] at hval
  rw [writeError, hli] at hval
  revert hval
  decide

/-- No editable seeded cell of any module resolves to a P&L `revenue`
cell key (for a separator-free version). -/
theorem seed_ne_pnlRevenueKey {moduleId : String} (version : String)
    {v p t : String} (hv : pipeFree v)
    (hp : p ∈ (DIM_ITEMS "product").map (·.id)) (ht : t ∈ timeIds) :
    ∀ mod, MODULES.find? (fun mm => mm.id == moduleId) = some mod →
      ∀ r ∈ moduleCombos moduleId, ∀ tp ∈ DIM_ITEMS "time", ∀ li ∈ mod.lineItems,
        li.editable = true → pnlRevenueKey v p t ≠ cellKey moduleId version r li.id tp.id := by
  intro mod hfind r _hr tp _htp li hli he heq
  have hd := cellKey_inj heq.symm (by decide) hv
    (by rw [intercalate_single]; exact product_ids_pipeFree p hp)
    (by decide) (timeIds_pipeFree t ht)
  obtain ⟨hm, _, _, hid, _⟩ := hd
  subst hm
  rw [find?_MODULES] at hfind
  simp at hfind
  rw [← hfind] at hli
  rw [pnl_revenue_not_editable li hli hid] at he
  exact Bool.false_ne_true he

/-- No entry for the P&L `revenue` column survives connect-time seeding
(seeding skips computed line items and the seed recalculation never
assigns it). -/
theorem seedData_get_pnlRevenue {v p t : String} (hv : pipeFree v)
    (hp : p ∈ (DIM_ITEMS "product").map (·.id)) (ht : t ∈ timeIds) :
    seedData.get (pnlRevenueKey v p t) = none := by
  have hrec : ∀ (vs : List DimensionItem) (st : Store),
      st.get (pnlRevenueKey v p t) = none →
      (vs.foldl recalcVersionStep st).get (pnlRevenueKey v p t) = none := by
    intro vs
    induction vs with
    | nil => intro st h; exact h
    | cons v2 rest ih =>
      intro st h
      apply ih
      rw [recalcVersionStep,
        recalculate_get_not_mem _ (pnlRevenueKey_not_out hv hp ht _ _),
        recalculate_get_not_mem _ (pnlRevenueKey_not_out hv hp ht _ _),
        recalculate_get_not_mem _ (pnlRevenueKey_not_out hv hp ht _ _)]
      exact h
  have hseed : ∀ (vs : List DimensionItem) (acc : Store × ℕ),
      acc.1.get (pnlRevenueKey v p t) = none →
      (vs.foldl seedVersionStep acc).1.get (pnlRevenueKey v p t) = none := by
    intro vs
    induction vs with
    | nil => intro acc h; exact h
    | cons v2 rest ih =>
      intro acc h
      apply ih
      rw [seedVersionStep]
      rw [seedModule_get_ne _ _ _ _ _ _ (seed_ne_pnlRevenueKey _ hv hp ht),
        seedModule_get_ne _ _ _ _ _ _ (seed_ne_pnlRevenueKey _ hv hp ht),
        seedModule_get_ne _ _ _ _ _ _ (seed_ne_pnlRevenueKey _ hv hp ht)]
      exact h
  rw [seedData]
  exact hrec VERSIONS _ (hseed VERSIONS (Store.empty, 42) rfl)

/-- The cell-store states reachable in the mock engine: the seeded state
of `connect`, followed by any sequence of `writeCells` and `recalculate`
calls with arbitrary arguments. -/
inductive Reachable : Store → Prop
  | seeded : Reachable seedData
  | write (moduleId version : String) (writes : List CellWrite) {s : Store} :
      Reachable s → Reachable (writeCells s moduleId version writes).2
  | recalc (moduleId version : String) {s : Store} :
      Reachable s → Reachable (recalculate moduleId version s)

/-- Invariant: in every reachable store, every P&L `revenue` cell (read
under a version string that does not contain the `'|'` key separator) is
absent. -/
theorem reachable_pnlRevenue_none {s : Store} (hs : Reachable s)
    {v p t : String} (hv : pipeFree v)
    (hp : p ∈ (DIM_ITEMS "product").map (·.id)) (ht : t ∈ timeIds) :
    s.get (pnlRevenueKey v p t) = none := by
  induction hs with
  | seeded => exact seedData_get_pnlRevenue hv hp ht
  | write moduleId version writes hs2 ih =>
    cases hfind : MODULES.find? (fun mm => mm.id == moduleId) with
    | none =>
      unfold writeCells
      rw [hfind]
      exact ih
    | some mod =>
      unfold writeCells
      rw [hfind]
      simp only
      rw [recalculate_get_not_mem _ (pnlRevenueKey_not_out hv hp ht _ _),
        foldl_writeStep_get_ne _ _ _ _ _ _ _
          (fun w _ hval => writeKey_ne_pnlRevenueKey hfind hval version hv hp ht)]
      exact ih
  | recalc moduleId version hs2 ih =>
    rw [recalculate_get_not_mem _ (pnlRevenueKey_not_out hv hp ht _ _)]
    exact ih

/-! ### Filter resolution against the specified order -/

/-- Modelled from the spec (§4.2 resolution order, stated per dimension):
1. an explicit, non-empty selection wins; 2. else a non-empty parent
selection restricts to items whose `parentItemId` is selected; 3. else
the full item set. -/
def specResolveItems (dimId : String) (filters : String → List String) :
    List DimensionItem :=
  if filters dimId ≠ [] then
    (DIM_ITEMS dimId).filter fun item => (filters dimId).contains item.id
  else
    match (DIMENSIONS.find? (fun d => d.id == dimId)).bind
        (fun d => d.parentDimensionId) with
    | some pd =>
      if filters pd ≠ [] then
        (DIM_ITEMS dimId).filter fun item =>
          match item.parentItemId with
          | some q => (filters pd).contains q
          | none => false
      else DIM_ITEMS dimId
    | none => DIM_ITEMS dimId

theorem getFilteredItems_eq_spec (dimId : String) (filters : String → List String) :
    getFilteredItems dimId filters = specResolveItems dimId filters := rfl

/-- Cascade correctness: with no explicit child selection and a singleton
parent selection, every resolved item's parent is the selected parent. -/
theorem getFilteredItems_cascade {dimId pd p1 : String}
    (filters : String → List String) (hsel : filters dimId = [])
    (hpd : (DIMENSIONS.find? (fun d => d.id == dimId)).bind
      (fun d => d.parentDimensionId) = some pd)
    (hp : filters pd = [p1]) :
    ∀ item ∈ getFilteredItems dimId filters, item.parentItemId = some p1 := by
  intro item hit
  simp only [getFilteredItems, hsel, hpd, hp] at hit
  simp only [ne_eq, not_true_eq_false, if_false, reduceCtorEq, ite_false,
    not_false_eq_true, if_true, List.mem_filter] at hit
  cases hq : item.parentItemId with
  | none => rw [hq] at hit; simp at hit
  | some q =>
    rw [hq] at hit
    have hqp : q = p1 := by simpa using hit.2
    rw [hqp]

/-! ### Cartesian row count -/

theorem sum_map_const {α : Type} (l : List α) (n : ℕ) :
    (l.map fun _ => n).sum = l.length * n := by
  induction l with
  | nil => simp
  | cons a t ih => simp [ih, Nat.succ_mul, Nat.add_comm]

theorem cartesian_length {α : Type} (arrays : List (List α)) :
    (cartesian arrays).length = (arrays.map List.length).prod := by
  have key : ∀ (xs : List (List α)) (acc : List (List α)),
      (xs.foldl (fun acc2 curr => acc2.flatMap fun a => curr.map fun c => a ++ [c]) acc).length
        = acc.length * (xs.map List.length).prod := by
    intro xs
    induction xs with
    | nil => intro acc; simp
    | cons curr rest ih =>
      intro acc
      simp only [List.foldl_cons, ih, List.map_cons, List.prod_cons]
      rw [List.length_flatMap]
      simp only [Function.comp_def, List.length_map]
      rw [sum_map_const]
      ring
  unfold cartesian
  cases arrays with
  | nil => simp
  | cons x xs =>
    rw [if_neg (by simp)]
    rw [key]
    simp

/-- `totalRows` of `getModuleData` is the product of the filtered item
counts of the module's row dimensions (the declared dimensions minus
`time`), independent of pagination. -/
theorem getModuleData_totalRows {moduleId : String} {mod : ModuleMeta}
    (hfind : MODULES.find? (fun mm => mm.id == moduleId) = some mod)
    (ws : String) (req : ModuleDataRequest) (st : Store) :
    (getModuleData ws moduleId req st).map (·.totalRows)
      = some (((mod.dimensionIds.filter (· ≠ "time")).map fun d =>
          (getFilteredItems d req.filters).length).prod) := by
  unfold getModuleData
  rw [hfind]
  simp only [Option.map_some, Option.some.injEq]
  rw [List.length_map, List.enum_length, cartesian_length]
  simp [List.map_map, Function.comp_def]

/-! ### Schema lookups -/

theorem DIM_ITEMS_unknown {dimId : String}
    (h : dimId ∉ ["time", "product", "region", "subregion", "department"]) :
    DIM_ITEMS dimId = [] := by
  have h1 : ¬ dimId = "time" := fun e => h (by simp [e])
  have h2 : ¬ dimId = "product" := fun e => h (by simp [e])
  have h3 : ¬ dimId = "region" := fun e => h (by simp [e])
  have h4 : ¬ dimId = "subregion" := fun e => h (by simp [e])
  have h5 : ¬ dimId = "department" := fun e => h (by simp [e])
  simp [DIM_ITEMS, h1, h2, h3, h4, h5]

theorem getDimensionItems_unknown {dimId : String}
    (h : dimId ∉ ["time", "product", "region", "subregion", "department"])
    (ws : String) (pf : Option ParentFilter) :
    getDimensionItems ws dimId pf = [] := by
  unfold getDimensionItems
  rw [DIM_ITEMS_unknown h]
  cases pf with
  | none => rfl
  | some p => simp

/-! ### Concrete evaluation setup

The Batteries rational operations are `@[irreducible]`; they are restored
to semireducible here so that `decide` can evaluate concrete stores. -/

set_option allowUnsafeReducibility true

attribute [local semireducible] Rat.add Rat.mul Rat.sub Rat.neg Rat.inv Rat.div
  Rat.ofScientific

set_option maxRecDepth 40000

/-- Store with `cogs = -10.005` and `opex = 0.005` for one P&L cell
(values writable through `writeCells`, which stores `Number(value)`
without rounding). -/
def c1Store : Store :=
  (Store.empty.set (cellKey "pnl" "actual" ["electronics"] "cogs" "q1_24")
    (-2001/200)).set
    (cellKey "pnl" "actual" ["electronics"] "opex" "q1_24") (1/200)

/-- Store with `units = 2` and `price = 3` for the (apparel, ca, Q1 2024)
revenue cell and nothing else. -/
def c2Store : Store :=
  (Store.empty.set (cellKey "revenue" "actual" ["apparel", "ca"] "units" "q1_24") 2).set
    (cellKey "revenue" "actual" ["apparel", "ca"] "price" "q1_24") 3

/-- Store with `units = 10`, `price = 5`, `discounts = 2` for the
(electronics, us, Q1 2024) revenue cell. -/
def c7Store : Store :=
  ((Store.empty.set (cellKey "revenue" "actual" ["electronics", "us"] "units" "q1_24")
      10).set
    (cellKey "revenue" "actual" ["electronics", "us"] "price" "q1_24") 5).set
    (cellKey "revenue" "actual" ["electronics", "us"] "discounts" "q1_24") 2

/-- A write whose column key smuggles the `'|'` separator into the time
id, forging a key that collides with the P&L `revenue` cell read under
version `"A|e|cogs"`. -/
def c10Write : CellWrite := ⟨"row_0_e", "cogs__electronics|revenue|q1_24", 5⟩

/-- An empty module-data request (no filters) under version `actual`. -/
def reqActual : ModuleDataRequest := { filters := fun _ => [], version := "actual" }

/-- A request filter selection: region = {eu}, nothing else. -/
def cascadeFilters : String → List String :=
  fun d => if d = "region" then ["eu"] else []

/-! ### Claims -/

/-- C1 (counterexample): the claim says `ebitda` is derived from the
already-rounded `gross_profit`. On the store `c1Store` (revenue absent =
0, cogs = -10.005, opex = 0.005) the code stores `ebitda = 10` (it rounds
`revenue - cogs - opex` directly), while deriving it from the rounded
`gross_profit` value would give `round2(10.01 - 0.005) = 10.01`. -/
theorem C1_ebitda_from_unrounded_counterexample :
    (recalculate "pnl" "actual" c1Store).get
        (cellKey "pnl" "actual" ["electronics"] "ebitda" "q1_24") = some 10
    ∧ round2 ((((recalculate "pnl" "actual" c1Store).get
          (cellKey "pnl" "actual" ["electronics"] "gross_profit" "q1_24")).getD 0)
        - ((c1Store.get (cellKey "pnl" "actual" ["electronics"] "opex" "q1_24")).getD 0))
      = 1001/100
    ∧ (10 : ℚ) ≠ 1001/100 :=
  ⟨by decide, by decide, by decide⟩

/-- C1 (amended): P&L recalculation sets
`gross_profit = round2(revenue - cogs)`,
`ebitda = round2(revenue - cogs - opex)` and
`net_income = round2((revenue - cogs - opex) * 0.75)`: every derivation is
rounded to 2 decimal places after computation, but `ebitda` and
`net_income` are computed from the unrounded intermediates, not from the
already-rounded `gross_profit`/`ebitda` values. -/
theorem C1_pnl_recalculation (v : String) (s : Store) (r : List String)
    (tp : DimensionItem) (hr : r ∈ moduleCombos "pnl")
    (htp : tp ∈ DIM_ITEMS "time") :
    ((recalculate "pnl" v s).get (cellKey "pnl" v r "gross_profit" tp.id)
        = some (round2 ((s.get (cellKey "pnl" v r "revenue" tp.id)).getD 0
            - (s.get (cellKey "pnl" v r "cogs" tp.id)).getD 0)))
    ∧ ((recalculate "pnl" v s).get (cellKey "pnl" v r "ebitda" tp.id)
        = some (round2 ((s.get (cellKey "pnl" v r "revenue" tp.id)).getD 0
            - (s.get (cellKey "pnl" v r "cogs" tp.id)).getD 0
            - (s.get (cellKey "pnl" v r "opex" tp.id)).getD 0)))
    ∧ ((recalculate "pnl" v s).get (cellKey "pnl" v r "net_income" tp.id)
        = some (round2 (((s.get (cellKey "pnl" v r "revenue" tp.id)).getD 0
            - (s.get (cellKey "pnl" v r "cogs" tp.id)).getD 0
            - (s.get (cellKey "pnl" v r "opex" tp.id)).getD 0) * 0.75))) :=
  recalculate_pnl_get v s hr htp

/-- Witness for C1 at the (electronics, Q1 2024) cell of `c1Store`. -/
theorem C1_pnl_recalculation_witness :
    ["electronics"] ∈ moduleCombos "pnl"
    ∧ (⟨"q1_24", "Q1 2024", none⟩ : DimensionItem) ∈ DIM_ITEMS "time"
    ∧ (recalculate "pnl" "actual" c1Store).get
        (cellKey "pnl" "actual" ["electronics"] "ebitda" "q1_24")
      = some (round2 ((c1Store.get
            (cellKey "pnl" "actual" ["electronics"] "revenue" "q1_24")).getD 0
          - (c1Store.get (cellKey "pnl" "actual" ["electronics"] "cogs" "q1_24")).getD 0
          - (c1Store.get (cellKey "pnl" "actual" ["electronics"] "opex" "q1_24")).getD 0)) :=
  ⟨by decide, by decide,
    (C1_pnl_recalculation "actual" c1Store ["electronics"] ⟨"q1_24", "Q1 2024", none⟩
      (by decide) (by decide)).2.1⟩

/-- C2: a write batch touching only the (electronics, us) row of the
revenue module still recalculates the (apparel, ca) row: its `net_rev`
cell, absent before the write, is assigned `round2(2 * 3 - 0) = 6` by the
write's recalculation pass, although no written cell implied that row.
(`recalculate` iterates every row combination of the module, contrary to
the claim and to the source comment `Recalculate computed cells for
affected rows`.) -/
theorem C2_recalculates_untouched_rows :
    c2Store.get (cellKey "revenue" "actual" ["apparel", "ca"] "net_rev" "q1_24") = none
    ∧ ((writeCells c2Store "revenue" "actual"
          [⟨"row_0_electronics_us", "units__q1_24", 10⟩]).2).get
        (cellKey "revenue" "actual" ["apparel", "ca"] "net_rev" "q1_24") = some 6 :=
  ⟨by decide, by decide⟩

/-- C3 (counterexample): `AnaplanAdapter.writeCells` performs no
editability check: a batch writing the non-editable `revenue` line item
of a module succeeds (`{success: true}`, no errors) and the cell is
serialized into the upload payload rather than rejected with a
`NotEditable` error. -/
theorem C3_anaplan_accepts_non_editable_counterexample :
    anaplanWriteCells ⟨[], [pnlModule], []⟩ "pnl" (some "imp_1")
        [⟨"r1", "revenue", 99⟩]
      = (⟨true, []⟩, [⟨"r1", "revenue", 99⟩]) := by
  decide

/-- C3 (amended): for `MockAdapter.writeCells`, a batch whose write
targets an `editable:false` line item is rejected with the
`is not editable` error and, provided the store is stable under
recalculation at the targeted cell (as every state produced by the engine
itself is), a follow-up read of that cell returns the prior value. -/
theorem C3_mock_rejects_non_editable (moduleId version : String)
    (mod : ModuleMeta) (w : CellWrite) (li : LineItemMeta) (s : Store)
    (hfind : MODULES.find? (fun mm => mm.id == moduleId) = some mod)
    (hli : mod.lineItems.find? (fun l => l.id == (parseColumnKey w.columnKey).1)
      = some li)
    (hed : li.editable = false)
    (hstab : (recalculate moduleId version s).get (writeKey moduleId version w)
      = s.get (writeKey moduleId version w)) :
    (writeCells s moduleId version [w]).1
        = ⟨false, ["Line item " ++ li.name ++ " is not editable"]⟩
    ∧ (writeCells s moduleId version [w]).2.get (writeKey moduleId version w)
        = s.get (writeKey moduleId version w) :=
  writeCells_rejected_single hfind s version hli hed hstab

/-- Witness for C3: rejecting a write to the P&L `revenue` line item on a
recalculated empty store. -/
theorem C3_mock_rejects_non_editable_witness :
    (writeCells (recalculate "pnl" "actual" Store.empty) "pnl" "actual"
        [⟨"row_0_electronics", "revenue__q1_24", 99⟩]).1
      = ⟨false, ["Line item Revenue is not editable"]⟩
    ∧ (writeCells (recalculate "pnl" "actual" Store.empty) "pnl" "actual"
        [⟨"row_0_electronics", "revenue__q1_24", 99⟩]).2.get
          (writeKey "pnl" "actual" ⟨"row_0_electronics", "revenue__q1_24", 99⟩)
      = (recalculate "pnl" "actual" Store.empty).get
          (writeKey "pnl" "actual" ⟨"row_0_electronics", "revenue__q1_24", 99⟩) :=
  C3_mock_rejects_non_editable "pnl" "actual" pnlModule
    ⟨"row_0_electronics", "revenue__q1_24", 99⟩
    ⟨"revenue", "Revenue", .currency, false⟩
    (recalculate "pnl" "actual" Store.empty)
    (by decide) (by decide) rfl
    (recalculate_pnl_idem "actual" Store.empty _)

/-- C4: `writeCells` never throws for invalid cells: it returns a result
listing one reason per invalid cell (unknown or non-editable line item),
succeeds exactly when the list is empty, and the valid cells of the same
batch are still committed (a valid write that is the batch's last writer
of its key, outside the recalculation write set, is readable afterwards
with its written value). -/
theorem C4_writeCells_partial_success (moduleId version : String)
    (mod : ModuleMeta) (s : Store) (writes : List CellWrite)
    (hfind : MODULES.find? (fun mm => mm.id == moduleId) = some mod) :
    (writeCells s moduleId version writes).1.errors
        = writes.filterMap (writeError mod)
    ∧ (writeCells s moduleId version writes).1.success
        = (writes.filterMap (writeError mod)).isEmpty
    ∧ ∀ (w : CellWrite) (ws1 ws2 : List CellWrite), writes = ws1 ++ w :: ws2 →
        writeError mod w = none →
        (∀ w2 ∈ ws2, writeKey moduleId version w2 ≠ writeKey moduleId version w) →
        writeKey moduleId version w ∉ recalcOutKeys moduleId version →
        (writeCells s moduleId version writes).2.get (writeKey moduleId version w)
          = some w.value := by
  refine ⟨(writeCells_result hfind s version writes).1,
    (writeCells_result hfind s version writes).2, ?_⟩
  rintro w ws1 ws2 rfl hval hlast hout
  exact writeCells_committed hfind s version ws1 ws2 hval hlast hout

/-- Witness for C4: a batch with one invalid write (non-editable
`net_rev`) and one valid write (`units`): the result lists exactly the
one reason, `success` is `false`, and the valid cell is committed. -/
theorem C4_writeCells_partial_success_witness :
    (writeCells Store.empty "revenue" "actual"
        [⟨"row_0_electronics_us", "net_rev__q1_24", 7⟩,
         ⟨"row_0_electronics_us", "units__q1_24", 10⟩]).1.errors
      = ["Line item Net Revenue is not editable"]
    ∧ (writeCells Store.empty "revenue" "actual"
        [⟨"row_0_electronics_us", "net_rev__q1_24", 7⟩,
         ⟨"row_0_electronics_us", "units__q1_24", 10⟩]).1.success = false
    ∧ (writeCells Store.empty "revenue" "actual"
        [⟨"row_0_electronics_us", "net_rev__q1_24", 7⟩,
         ⟨"row_0_electronics_us", "units__q1_24", 10⟩]).2.get
          (writeKey "revenue" "actual" ⟨"row_0_electronics_us", "units__q1_24", 10⟩)
      = some 10 := by
  have h := C4_writeCells_partial_success "revenue" "actual" revenueModule Store.empty
    [⟨"row_0_electronics_us", "net_rev__q1_24", 7⟩,
     ⟨"row_0_electronics_us", "units__q1_24", 10⟩] (by decide)
  refine ⟨?_, ?_, ?_⟩
  · rw [h.1]; decide
  · rw [h.2.1]; decide
  · exact h.2.2 ⟨"row_0_electronics_us", "units__q1_24", 10⟩
      [⟨"row_0_electronics_us", "net_rev__q1_24", 7⟩] [] rfl (by decide)
      (fun w2 h2 => absurd h2 (List.not_mem_nil _)) (by decide)

/-- C5: the effective item set of a dimension follows the specified
precedence (explicit non-empty selection; else non-empty parent selection
filtered through `parentItemId`; else the full item set), and with parent
selection `{p1}` and no explicit child selection every resolved item has
`parentItemId = p1`. -/
theorem C5_filter_resolution :
    (∀ (dimId : String) (filters : String → List String),
      getFilteredItems dimId filters = specResolveItems dimId filters)
    ∧ ∀ (dimId pd p1 : String) (filters : String → List String),
        filters dimId = [] →
        (DIMENSIONS.find? (fun d => d.id == dimId)).bind
          (fun d => d.parentDimensionId) = some pd →
        filters pd = [p1] →
        ∀ item ∈ getFilteredItems dimId filters, item.parentItemId = some p1 :=
  ⟨fun dimId filters => getFilteredItems_eq_spec dimId filters,
   fun _ _ _ filters hsel hpd hp => getFilteredItems_cascade filters hsel hpd hp⟩

/-- Witness for C5: subregions filtered by the parent selection
region = {eu}; the United Kingdom item is resolved and its parent is eu. -/
theorem C5_filter_resolution_witness :
    getFilteredItems "subregion" cascadeFilters
      = specResolveItems "subregion" cascadeFilters
    ∧ (⟨"uk", "United Kingdom", some "eu"⟩ : DimensionItem).parentItemId = some "eu" :=
  ⟨C5_filter_resolution.1 "subregion" cascadeFilters,
   C5_filter_resolution.2 "subregion" "region" "eu" cascadeFilters rfl (by decide) rfl
     ⟨"uk", "United Kingdom", some "eu"⟩ (by decide)⟩

/-- C6: the pre-pagination row count `totalRows` of `getModuleData`
equals the product of the filtered item counts of the module's row
dimensions (its declared dimensions with `time` excluded, in declared
order). -/
theorem C6_totalRows_is_product (moduleId : String) (mod : ModuleMeta)
    (ws : String) (req : ModuleDataRequest) (st : Store)
    (hfind : MODULES.find? (fun mm => mm.id == moduleId) = some mod) :
    (getModuleData ws moduleId req st).map (·.totalRows)
      = some (((mod.dimensionIds.filter (· ≠ "time")).map fun d =>
          (getFilteredItems d req.filters).length).prod) :=
  getModuleData_totalRows hfind ws req st

/-- Witness for C6: the unfiltered Revenue module has
3 products × 7 subregions = 21 rows. -/
theorem C6_totalRows_is_product_witness :
    (getModuleData "demo" "revenue" reqActual Store.empty).map (·.totalRows)
      = some 21 := by
  rw [C6_totalRows_is_product "revenue" revenueModule "demo" reqActual Store.empty
    (by decide)]
  decide

/-- C7: recalculation is deterministic (it is a pure function of the
store) and idempotent for the revenue module, and on inputs
`units = 10, price = 5, discounts = 2` it stores exactly `net_rev = 48`. -/
theorem C7_recalculation_idempotent :
    ((recalculate "revenue" "actual" c7Store).get
        (cellKey "revenue" "actual" ["electronics", "us"] "net_rev" "q1_24")
      = some 48)
    ∧ ∀ (v : String) (s : Store) (k : String),
        (recalculate "revenue" v (recalculate "revenue" v s)).get k
          = (recalculate "revenue" v s).get k :=
  ⟨by decide, recalculate_revenue_idem⟩

/-- C8 (counterexample): `getSchema` does not fail for an unrecognized
workspace id: it returns the full static catalog; and
`getDimensionItems` does not fail for an unrecognized dimension id: it
returns the empty item list. -/
theorem C8_no_notfound_counterexample :
    getSchema "no-such-workspace" = ⟨DIMENSIONS, MODULES, VERSIONS⟩
    ∧ getDimensionItems "demo" "no-such-dimension" none = [] :=
  ⟨rfl, rfl⟩

/-- C8 (amended): `getSchema` returns the static catalog for every
workspace id (recognized or not), and `getDimensionItems` returns the
empty item list for every unrecognized dimension id; neither fails with a
`NotFound` condition. -/
theorem C8_lookups_return_defaults :
    (∀ ws : String, getSchema ws = ⟨DIMENSIONS, MODULES, VERSIONS⟩)
    ∧ ∀ (ws dimId : String) (pf : Option ParentFilter),
        dimId ∉ ["time", "product", "region", "subregion", "department"] →
        getDimensionItems ws dimId pf = [] :=
  ⟨fun _ => rfl, fun ws _ pf h => getDimensionItems_unknown h ws pf⟩

/-- Witness for C8 at a concrete unrecognized dimension id. -/
theorem C8_lookups_return_defaults_witness :
    getSchema "sandbox-2" = ⟨DIMENSIONS, MODULES, VERSIONS⟩
    ∧ getDimensionItems "demo" "territory" none = [] :=
  ⟨C8_lookups_return_defaults.1 "sandbox-2",
   C8_lookups_return_defaults.2 "demo" "territory" none (by decide)⟩

/-- C9: `getModuleData` is entirely independent of the request's
`numericFilters` (and `lineItemFilters`): no code in the adapter reads
them, so a `between` filter never restricts the returned rows. -/
theorem C9_numericFilters_ignored (ws moduleId : String)
    (req : ModuleDataRequest) (nf : List NumericFilterDef)
    (lif : List (String × List String)) (st : Store) :
    getModuleData ws moduleId
        { req with numericFilters := nf, lineItemFilters := lif } st
      = getModuleData ws moduleId req st := by
  cases req
  unfold getModuleData
  cases MODULES.find? (fun m => m.id == moduleId) with
  | none => rfl
  | some mod => rfl

/-- C10 (counterexample): starting from the seeded store, a single
accepted `writeCells` call on the P&L module (version `"A"`, row id
`"row_0_e"`, column key `"cogs__electronics|revenue|q1_24"`) forges the
key read for the `revenue` line item of product `electronics` under
version `"A|e|cogs"`: the state is reachable and the read returns `5`,
not `null`. -/
theorem C10_revenue_key_forged_counterexample :
    Reachable (writeCells seedData "pnl" "A" [c10Write]).2
    ∧ ((writeCells seedData "pnl" "A" [c10Write]).2).get
        (pnlRevenueKey "A|e|cogs" "electronics" "q1_24") = some 5 :=
  ⟨Reachable.write "pnl" "A" [c10Write] Reachable.seeded, by decide⟩

/-- C10 (amended): in every reachable cell-store state (seeding followed
by any sequence of `writeCells`/`recalculate` calls), every P&L `revenue`
cell read under a version string free of the `'|'` key separator is
absent: seeding skips non-editable line items, recalculation never
assigns `revenue`, and `writeCells` rejects it as non-editable. -/
theorem C10_pnl_revenue_absent (s : Store) (v p t : String)
    (hs : Reachable s) (hv : pipeFree v)
    (hp : p ∈ (DIM_ITEMS "product").map (·.id)) (ht : t ∈ timeIds) :
    s.get (pnlRevenueKey v p t) = none :=
  reachable_pnlRevenue_none hs hv hp ht

/-- Witness for C10 at the seeded store. -/
theorem C10_pnl_revenue_absent_witness :
    seedData.get (pnlRevenueKey "actual" "electronics" "q1_24") = none :=
  C10_pnl_revenue_absent seedData "actual" "electronics" "q1_24"
    Reachable.seeded (by decide) (by decide) (by decide)
